import Mathlib

/-! Gateway configuration loading and key authentication.

A shallow embedding of three source files of the gateway:

* `middleware_auth_key.go`: `stripBearer`, `AuthKey.setContextVars`,
  `AuthKey.ProcessRequest`, `AuthFailed`;
* `policy.go`: `DBPolicy.ToRegularPolicy`, `LoadPoliciesFromFile`,
  `LoadPoliciesFromDashboard`, `LoadPoliciesFromRPC`;
* `main.go`: `getPolicies`, `getAPISpecs`, `buildConnStr`, `loadAPIEndpoints`,
  `generateOAuthPrefix`, `loadCustomMiddleware`, `creeateResponseMiddlewareChain`,
  `handleCORS`, `IsRPCMode`, the two `Less` comparators, `doReload`,
  `reloadLoop`, `ReloadURLStructure`.

Go strings are embedded as Lean strings and processed character by character.
Go maps are association lists with unique keys; a nil map is `none`.
Go slices are lists, except where two slice variables can point into one
array: there they are kept with their arrays and capacities.
Calls that leave the three files (HTTP, RPC, the file system, JSON decoding, the
session manager, the event and health-check sinks) are parameters or recorded
effects, so every theorem holds for whatever those collaborators answer.
-/

namespace Tyk

/-! ## Go strings -/

/-- The runes for which Go's `unicode.IsSpace` answers true. -/
def isSpace (c : Char) : Bool :=
  let n := c.toNat
  (9 ≤ n && n ≤ 13) || n = 32 || n = 133 || n = 160 || n = 5760 ||
  (8192 ≤ n && n ≤ 8202) || n = 8232 || n = 8233 || n = 8239 || n = 8287 || n = 12288

/-- Go's `strings.TrimSpace` on the runes of a string: leading and trailing
white space removed. -/
def trimSpaceChars (s : List Char) : List Char :=
  ((s.dropWhile isSpace).reverse.dropWhile isSpace).reverse

/-- Go's `strings.Replace(s, old, new, 1)`: the leftmost occurrence of `old`
in `s` is replaced by `new`; `s` is returned as it is when `old` does not occur. -/
def replaceFirstChars (old new : List Char) : List Char → List Char
  | [] => if old.isEmpty then new else []
  | c :: cs =>
    if old.isPrefixOf (c :: cs) then new ++ (c :: cs).drop old.length
    else c :: replaceFirstChars old new cs

/-- Source `stripBearer` on the runes of the token. -/
def stripBearerChars (token : List Char) : List Char :=
  let token := replaceFirstChars "Bearer".data [] token
  let token := replaceFirstChars "bearer".data [] token
  trimSpaceChars token

/-- Source `stripBearer` (middleware_auth_key.go):
`strings.Replace(token, "Bearer", "", 1)`, then
`strings.Replace(token, "bearer", "", 1)`, then `strings.TrimSpace`. -/
def stripBearer (token : String) : String :=
  ⟨stripBearerChars token.data⟩

/-! ## Go maps -/

/-- Go's `m[k]` with the comma-ok form: the value stored under `k`, if any. -/
def mapGet {α : Type} (k : String) : List (String × α) → Option α
  | [] => none
  | (k', v) :: m => if k' = k then some v else mapGet k m

/-- Go's `m[k] = v`: the entry under `k` is replaced when there is one,
added otherwise. -/
def mapSet {α : Type} (k : String) (v : α) : List (String × α) → List (String × α)
  | [] => [(k, v)]
  | (k', v') :: m => if k' = k then (k, v) :: m else (k', v') :: mapSet k v m

/-- The keys of a map. -/
def mapKeys {α : Type} (m : List (String × α)) : List String :=
  m.map Prod.fst

/-- Go's `len(m)` for a map that may be nil: a nil map has length zero. -/
def mapLen {α : Type} : Option (List (String × α)) → Nat
  | none => 0
  | some m => m.length

/-! ## Key authentication (middleware_auth_key.go) -/

/-- The fields of the API definition's `Auth` block that `ProcessRequest` reads. -/
structure AuthConfig where
  UseParam : Bool
  ParamName : String
  UseCookie : Bool
  CookieName : String
  AuthHeaderName : String
  deriving DecidableEq, Repr

/-- A value stored in the request's context data (`map[string]interface{}`):
a string, or any other value identified by a tag. -/
inductive CtxValue where
  | str (s : String)
  | other (tag : Nat)
  deriving DecidableEq, Repr

/-- What the request's processing context holds: the session put there by
`ctxSetSession`, the token put there by `ctxSetAuthToken`, and the context data
read by `ctxGetData` (`none` when the request carries no context data). -/
structure Ctx (σ : Type) where
  session : Option σ
  authToken : Option String
  data : Option (List (String × CtxValue))

/-- The inbound request as `ProcessRequest` sees it. `HeaderGet` is
`r.Header.Get`, `FormValue` and `Cookie` are the accessors of the copy made by
`CopyHttpRequest` (`Cookie` is `none` when the cookie is not present), `ctx` is
the processing context attached to the request. -/
structure Request (σ : Type) where
  HeaderGet : String → String
  FormValue : String → String
  Cookie : String → Option String
  ctx : Ctx σ

/-- The `BaseIdentityProvidedBy` values that `ProcessRequest` switches on.
They are constants of package `apidef`, taken as parameters. -/
structure AuthTypes where
  AuthToken : String
  UnsetAuth : String

/-- The fields of the API spec that the key middleware reads. -/
structure APISpec where
  Auth : AuthConfig
  EnableContextVars : Bool
  BaseIdentityProvidedBy : String

/-- Calls made by `ProcessRequest` to the rest of the gateway, in the order
they happen. -/
inductive Effect where
  | logInfo (msg : String)
  | sessionLookup (key : String)
  | authFailureEvent (key : String)
  | healthCheck (kind : String) (value : String)
  deriving DecidableEq, Repr

/-- The pair `(error, int)` returned by `ProcessRequest`, the request context
after the call and the calls made on the way. `err = none` is Go's `nil`. -/
structure Outcome (σ : Type) where
  err : Option String
  status : Nat
  ctx : Ctx σ
  effects : List Effect

/-- Lines 49 to 64 of `ProcessRequest`: the header value, overridden by the
form value when the parameter branch is entered and the value is not empty. -/
def keyAfterParam {σ : Type} (config : AuthConfig) (r : Request σ) : String :=
  let key := r.HeaderGet config.AuthHeaderName
  let paramName := config.ParamName
  if config.UseParam || paramName != "" then
    let paramName := if paramName == "" then config.AuthHeaderName else paramName
    let paramValue := r.FormValue paramName
    if paramValue != "" then paramValue else key
  else key

/-- Lines 66 to 84 of `ProcessRequest`: the value held so far, overridden by
the cookie value when the cookie branch is entered and the value is not empty. -/
def keyAfterCookie {σ : Type} (config : AuthConfig) (r : Request σ) (key : String) : String :=
  let cookieName := config.CookieName
  if config.UseCookie || cookieName != "" then
    let cookieName := if cookieName == "" then config.AuthHeaderName else cookieName
    let cookieValue :=
      match r.Cookie cookieName with
      | some v => v
      | none => ""
    if cookieValue != "" then cookieValue else key
  else key

/-- The value of `key` at line 86 of `ProcessRequest`, before the emptiness
test and before `stripBearer`. -/
def selectKey {σ : Type} (config : AuthConfig) (r : Request σ) : String :=
  keyAfterCookie config r (keyAfterParam config r)

/-- The cookie value read at lines 66 to 79 of `ProcessRequest`: the value of
the cookie named `CookieName` (or `AuthHeaderName` when that is empty); empty
when the cookie branch is not entered or the request has no such cookie. -/
def pickedCookie {σ : Type} (config : AuthConfig) (r : Request σ) : String :=
  let cookieName := config.CookieName
  if config.UseCookie || cookieName != "" then
    let cookieName := if cookieName == "" then config.AuthHeaderName else cookieName
    match r.Cookie cookieName with
    | some v => v
    | none => ""
  else ""

/-- Source `AuthKey.setContextVars`: with `EnableContextVars` set and context
data present, the token is stored under `"token"`. -/
def setContextVars {σ : Type} (spec : APISpec) (ctx : Ctx σ) (token : String) : Ctx σ :=
  if !spec.EnableContextVars then ctx
  else
    match ctx.data with
    | some cnt => { ctx with data := some (mapSet "token" (CtxValue.str token) cnt) }
    | none => ctx

/-- The name of the health-check counter `KeyFailure`. -/
def KeyFailure : String := "KeyFailure"

/-- Source `AuthKey.ProcessRequest`. `checkSession` is
`CheckSessionAndIdentityForValidKey`, which answers a session and whether the
key exists. -/
def ProcessRequest {σ : Type} (consts : AuthTypes) (spec : APISpec)
    (checkSession : String → σ × Bool) (r : Request σ) : Outcome σ :=
  let config := spec.Auth
  let key := selectKey config r
  if key == "" then
    { err := some "Authorization field missing", status := 401, ctx := r.ctx,
      effects := [Effect.logInfo "Attempted access with malformed header, no auth header found."] }
  else
    let key := stripBearer key
    let (session, keyExists) := checkSession key
    if !keyExists then
      { err := some "Key not authorised", status := 403, ctx := r.ctx,
        effects := [Effect.sessionLookup key,
                    Effect.logInfo "Attempted access with non-existent key.",
                    Effect.authFailureEvent key,
                    Effect.healthCheck KeyFailure "1"] }
    else
      let ctx :=
        if spec.BaseIdentityProvidedBy == consts.AuthToken ||
            spec.BaseIdentityProvidedBy == consts.UnsetAuth then
          setContextVars spec { r.ctx with session := some session, authToken := some key } key
        else r.ctx
      { err := none, status := 200, ctx := ctx, effects := [Effect.sessionLookup key] }

/-- The token handed to the session lookup by an outcome, if the lookup was called. -/
def lookedUp {σ : Type} (o : Outcome σ) : List String :=
  o.effects.filterMap fun e =>
    match e with
    | Effect.sessionLookup k => some k
    | _ => none

/-! ## Policies (policy.go) -/

/-- A `bson.ObjectId`: a string of raw bytes. -/
abbrev ObjectId := List (Fin 256)

/-- One lower-case hexadecimal digit. -/
def hexDigit (n : Nat) : Char :=
  "0123456789abcdef".data.getD n '0'

/-- The method `ObjectId.Hex`: two lower-case hexadecimal digits per byte. -/
def ObjectId.Hex (id : ObjectId) : String :=
  ⟨id.flatMap fun b => [hexDigit (b.val / 16), hexDigit (b.val % 16)]⟩

/-- The type `user.AccessSpec`: one allowed URL pattern with its methods. -/
structure AccessSpec where
  URL : String
  Methods : List String
  deriving DecidableEq, Repr

/-- The type `user.AccessDefinition`. -/
structure AccessDefinition where
  APIName : String
  APIID : String
  Versions : List String
  AllowedURLs : List AccessSpec
  deriving DecidableEq, Repr

/-- Source `DBAccessDefinition`. -/
structure DBAccessDefinition where
  APIName : String
  APIID : String
  Versions : List String
  AllowedURLs : List AccessSpec
  deriving DecidableEq, Repr

/-- Source `DBAccessDefinition.ToRegularAD`. -/
def DBAccessDefinition.ToRegularAD (d : DBAccessDefinition) : AccessDefinition :=
  { APIName := d.APIName, APIID := d.APIID, Versions := d.Versions, AllowedURLs := d.AllowedURLs }

/-- Modelled from the spec: the declaration of `user.Policy` is outside the
three files. The spec's data model gives a policy a unique `ID`, an `OrgID`, a
numeric rate and period, a quota ceiling and renewal period, and a mapping from
API id to access definition; `MID` is the object id the loaders read. The
loaders only carry the numeric fields along. -/
structure Policy where
  MID : ObjectId
  ID : String
  OrgID : String
  Rate : Int
  Per : Int
  QuotaMax : Int
  QuotaRenewalRate : Int
  AccessRights : Option (List (String × AccessDefinition))
  deriving DecidableEq, Repr

/-- Source `DBPolicy`: an embedded policy and its own access-rights map. -/
structure DBPolicy where
  Policy : Policy
  AccessRights : Option (List (String × DBAccessDefinition))
  deriving DecidableEq, Repr

/-- Source `DBPolicy.ToRegularPolicy`: the embedded policy with a freshly made
access-rights map holding the conversion of every entry of `d.AccessRights`. -/
def DBPolicy.ToRegularPolicy (d : DBPolicy) : Tyk.Policy :=
  let policy := d.Policy
  { policy with
    AccessRights := some ((d.AccessRights.getD []).foldl
      (fun m kv => mapSet kv.1 kv.2.ToRegularAD m) []) }

/-- A policy map as the loaders return it; `none` is Go's nil map. -/
abbrev PolicyMap := Option (List (String × Policy))

/-- Calls the loaders make to the rest of the gateway that the store does not
show: error and warning log lines, and the re-registration flow. -/
inductive Call where
  | logError (msg : String)
  | warnDuplicate (policyID : String) (orgID : String)
  | reLogin
  deriving DecidableEq, Repr

/-- The package-level variables the loaders and `getPolicies` read or write,
with the calls made so far. -/
structure Gateway where
  policiesByID : PolicyMap
  ServiceNonce : String
  NodeID : String
  calls : List Call
  deriving DecidableEq, Repr

/-- An HTTP response as far as the dashboard loader reads it. -/
structure Response where
  StatusCode : Nat
  Body : String
  deriving DecidableEq, Repr

/-- What `http.NewRequest` followed by `c.Do` gives: the request could not be
built, the call failed, or a response arrived. -/
inductive HttpResult where
  | badRequest
  | failed
  | response (resp : Response)
  deriving DecidableEq, Repr

/-- The body of a dashboard answer once decoded: `Message` and `Nonce`. -/
structure PolicyList where
  Message : List DBPolicy
  Nonce : String
  deriving DecidableEq, Repr

/-- The collaborators of the loaders. `fetch endpoint secret nodeID nonce` is
the GET with its three headers; `decodeList`, `decodePolicies` and `decodeFile`
are the JSON decoders (`none` is a decode error; `decodeFile` gives the map as
the decoder left it together with whether it reported an error);
`rpcGetPolicies` is `store.GetPolicies`; `openFile` is `os.Open` with the file
content, `none` when it cannot be opened; `reLogin` is the re-registration flow,
which acts on the nonce and the node id. -/
structure Env where
  fetch : String → String → String → String → HttpResult
  decodeList : String → Option PolicyList
  rpcGetPolicies : String → String
  decodePolicies : String → Option (List Policy)
  openFile : String → Option String
  decodeFile : String → PolicyMap × Bool
  reLogin : String × String → String × String

/-- Source `LoadPoliciesFromFile`. -/
def LoadPoliciesFromFile (env : Env) (filePath : String) (g : Gateway) : PolicyMap × Gateway :=
  match env.openFile filePath with
  | none => (none, { g with calls := g.calls ++ [Call.logError "Couldn't open policy file: "] })
  | some f =>
    let (policies, err) := env.decodeFile f
    if err then
      (policies, { g with calls := g.calls ++ [Call.logError "Couldn't unmarshal policies: "] })
    else (policies, g)

/-- The policy id the dashboard loader resolves for a list element: the hex of
`MID`, or the explicit `ID` when `allowExplicit` is set and `ID` is not empty
(lines 123 to 126). -/
def resolveID (allowExplicit : Bool) (p : DBPolicy) : String :=
  let id := p.Policy.MID.Hex
  if allowExplicit && p.Policy.ID != "" then p.Policy.ID else id

/-- The assignment `p.ID = id` of line 127. -/
def stampID (p : DBPolicy) (id : String) : DBPolicy :=
  { p with Policy := { p.Policy with ID := id } }

/-- One turn of the loop of `LoadPoliciesFromDashboard` (lines 122 to 137) on
the map built so far and the calls made so far. -/
def dashboardStep (allowExplicit : Bool) (acc : List (String × Policy) × List Call)
    (p : DBPolicy) : List (String × Policy) × List Call :=
  let id := resolveID allowExplicit p
  let p := stampID p id
  match mapGet id acc.1 with
  | some _ => (acc.1, acc.2 ++ [Call.warnDuplicate p.Policy.ID p.Policy.OrgID])
  | none => (mapSet id p.ToRegularPolicy acc.1, acc.2)

/-- Source `LoadPoliciesFromDashboard`. The result is `none` when the goroutine
panics on the nil request that `http.NewRequest` left behind. -/
def LoadPoliciesFromDashboard (env : Env) (endpoint secret : String) (allowExplicit : Bool)
    (g : Gateway) : Option (PolicyMap × Gateway) :=
  match env.fetch endpoint secret g.NodeID g.ServiceNonce with
  | HttpResult.badRequest => none
  | HttpResult.failed =>
    some (none, { g with calls := g.calls ++ [Call.logError "Policy request failed: "] })
  | HttpResult.response resp =>
    if resp.StatusCode == 403 then
      let reg := env.reLogin (g.ServiceNonce, g.NodeID)
      some (none, { g with
        ServiceNonce := reg.1, NodeID := reg.2,
        calls := g.calls ++
          [Call.logError ("Policy request login failure, Response was: " ++ resp.Body),
           Call.reLogin] })
    else
      match env.decodeList resp.Body with
      | none =>
        some (none, { g with calls := g.calls ++ [Call.logError "Failed to decode policy body: "] })
      | some list =>
        let acc := list.Message.foldl (dashboardStep allowExplicit) ([], g.calls)
        some (some acc.1, { g with ServiceNonce := list.Nonce, calls := acc.2 })

/-- One turn of the loop of `LoadPoliciesFromRPC` (lines 161 to 164). -/
def rpcStep (policies : List (String × Policy)) (p : Policy) : List (String × Policy) :=
  let p := { p with ID := p.MID.Hex }
  mapSet p.MID.Hex p policies

/-- Source `LoadPoliciesFromRPC`. -/
def LoadPoliciesFromRPC (env : Env) (orgId : String) (g : Gateway) : PolicyMap × Gateway :=
  let rpcPolicies := env.rpcGetPolicies orgId
  match env.decodePolicies rpcPolicies with
  | none => (none, { g with calls := g.calls ++ [Call.logError "Failed decode: "] })
  | some dbPolicyList => (some (dbPolicyList.foldl rpcStep []), g)

/-! ## The policy store (main.go) -/

/-- The configuration fields `getPolicies` reads. -/
structure Config where
  PolicySource : String
  PolicyConnectionString : String
  PolicyRecordName : String
  AllowExplicitPolicyID : Bool
  NodeSecret : String
  RPCKey : String
  deriving DecidableEq, Repr

/-- Lines 295 to 300 of `getPolicies`: the store is replaced when the loaded
map has at least one entry. -/
def storePolicies (thesePolicies : PolicyMap) (g : Gateway) : Gateway :=
  if mapLen thesePolicies > 0 then { g with policiesByID := thesePolicies } else g

/-- Source `getPolicies`. The result is `none` when the process does not go
on: `log.Fatal` in service mode without a connection string, or the panic of
the dashboard loader. -/
def getPolicies (env : Env) (config : Config) (g : Gateway) : Option Gateway :=
  if config.PolicySource == "service" then
    if config.PolicyConnectionString != "" then
      let connStr := config.PolicyConnectionString
      let connStr := connStr ++ "/system/policies"
      match LoadPoliciesFromDashboard env connStr config.NodeSecret
          config.AllowExplicitPolicyID g with
      | none => none
      | some (thesePolicies, g) => some (storePolicies thesePolicies g)
    else none
  else if config.PolicySource == "rpc" then
    let (thesePolicies, g) := LoadPoliciesFromRPC env config.RPCKey g
    some (storePolicies thesePolicies g)
  else
    if config.PolicyRecordName == "" then some g
    else
      let (thesePolicies, g) := LoadPoliciesFromFile env config.PolicyRecordName g
      some (storePolicies thesePolicies g)

/-! ## API specs as main.go reads and writes them -/

/-- Go's `len` of a string: its length in bytes. -/
def goLen (s : String) : Nat := s.utf8ByteSize

/-- The `Proxy` block of an API definition, as far as main.go reads it. -/
structure ProxyConfig where
  ListenPath : String
  deriving DecidableEq, Repr

/-- The `CORS` block of an API definition. -/
structure CORSConfig where
  Enable : Bool
  AllowedOrigins : List String
  AllowedMethods : List String
  AllowedHeaders : List String
  ExposedHeaders : List String
  AllowCredentials : Bool
  MaxAge : Int
  OptionsPassthrough : Bool
  Debug : Bool
  deriving DecidableEq, Repr

/-- The options handed to `cors.New` by `handleCORS`. -/
structure CORSOptions where
  AllowedOrigins : List String
  AllowedMethods : List String
  AllowedHeaders : List String
  ExposedHeaders : List String
  AllowCredentials : Bool
  MaxAge : Int
  OptionsPassthrough : Bool
  Debug : Bool
  deriving DecidableEq, Repr

/-- One entry of `ResponseProcessors`: a processor name and its options, an
opaque value carried as text. -/
structure ResponseProcessor where
  Name : String
  Options : String
  deriving DecidableEq, Repr

/-- A response handler as `processorType.New(options, spec)` returns it,
identified by the processor type that built it and the options it was built
from. -/
structure TykResponseHandler where
  processorType : String
  options : String
  deriving DecidableEq, Repr

/-- An auth or session provider block (`AuthProviderMeta`,
`SessionProviderMeta`), as far as main.go reads it. -/
structure ProviderMeta where
  Name : String
  StorageEngine : String
  deriving DecidableEq, Repr

/-- Source `APISpec` with the fields main.go reads or writes. `ResponseChain`
is a pointer in the source; `none` is nil. -/
structure APISpecMain where
  APIID : String
  Proxy : ProxyConfig
  Domain : String
  CORS : CORSConfig
  ResponseProcessors : List ResponseProcessor
  ResponseChain : Option (List TykResponseHandler)
  ResponseHandlersActive : Bool
  AuthProvider : ProviderMeta
  SessionProvider : ProviderMeta
  deriving DecidableEq, Repr

/-! ## OAuth key prefixes (main.go) -/

/-- Source constant `OAUTH_PREFIX`. -/
def OAUTH_PREFIX : String := "oauth-data."

/-- Source `generateOAuthPrefix`. -/
def generateOAuthPrefix (apiID : String) : String :=
  OAUTH_PREFIX ++ apiID ++ "."

/-! ## Routing order (main.go) -/

/-- Source `SortableAPISpecListByListen.Less`, on the elements `s[i]` and `s[j]`. -/
def SortableAPISpecListByListen.Less (si sj : APISpecMain) : Bool :=
  decide (goLen si.Proxy.ListenPath > goLen sj.Proxy.ListenPath)

/-- Source `SortableAPISpecListByHost.Less`, on the elements `s[i]` and `s[j]`. -/
def SortableAPISpecListByHost.Less (si sj : APISpecMain) : Bool :=
  decide (goLen si.Domain > goLen sj.Domain)

/-- One turn of the inner loop of Go's `insertionSort` on the part already in
order, held last element first: the new element moves left past every element
it is `less` than. -/
def sinkLeft {α : Type} (less : α → α → Bool) (x : α) : List α → List α
  | [] => [x]
  | y :: ys => if less x y then y :: sinkLeft less x ys else x :: y :: ys

/-- Go's `insertionSort`, the procedure `sort.Sort` finishes short slices
with: each element in turn is moved left while it is `less` than its
predecessor. -/
def insertionSort {α : Type} (less : α → α → Bool) (l : List α) : List α :=
  (l.foldl (fun acc x => sinkLeft less x acc) []).reverse

/-- The contract of `sort.Sort`: `out` is a rearrangement of `inp` in which
no element is `less` than one that stands before it. -/
def IsSortOutput {α : Type} (less : α → α → Bool) (inp out : List α) : Prop :=
  out.Perm inp ∧ out.Pairwise fun a b => less b a = false

/-! ## CORS stage (main.go) -/

/-- Source `handleCORS`. `corsHandler` is `cors.New(options).Handler`. -/
def handleCORS {κ : Type} (corsHandler : CORSOptions → κ) (chain : List κ)
    (spec : APISpecMain) : List κ :=
  if spec.CORS.Enable then
    let c := corsHandler
      { AllowedOrigins := spec.CORS.AllowedOrigins,
        AllowedMethods := spec.CORS.AllowedMethods,
        AllowedHeaders := spec.CORS.AllowedHeaders,
        ExposedHeaders := spec.CORS.ExposedHeaders,
        AllowCredentials := spec.CORS.AllowCredentials,
        MaxAge := spec.CORS.MaxAge,
        OptionsPassthrough := spec.CORS.OptionsPassthrough,
        Debug := spec.CORS.Debug }
    chain ++ [c]
  else chain

/-! ## Response chain (main.go) -/

/-- Calls made by `creeateResponseMiddlewareChain`, in the order they happen:
a processor built by `New`, and the error line. -/
inductive ChainCall where
  | newProcessor (name : String) (options : String)
  | logError (msg : String)
  deriving DecidableEq, Repr

/-- The loop of `creeateResponseMiddlewareChain` (lines 595 to 608) from the
processors still to do, the chain filled so far and the calls made so far.
`getByName` is `GetResponseProcessorByName`, `none` being its error; `New`
builds the handler and writes nothing to the spec. The chain is `none` when the
loop returned on an error. -/
def responseChainLoop (getByName : String → Option String) :
    List ResponseProcessor → List TykResponseHandler → List ChainCall →
      Option (List TykResponseHandler) × List ChainCall
  | [], chain, calls => (some chain, calls)
  | processorDetail :: rest, chain, calls =>
    match getByName processorDetail.Name with
    | none => (none, calls ++ [ChainCall.logError "Failed to load processor! "])
    | some processorType =>
      let thisProcessor : TykResponseHandler :=
        { processorType := processorType, options := processorDetail.Options }
      responseChainLoop getByName rest (chain ++ [thisProcessor])
        (calls ++ [ChainCall.newProcessor processorDetail.Name processorDetail.Options])

/-- Source `creeateResponseMiddlewareChain`: the spec after the call and the
calls made. -/
def creeateResponseMiddlewareChain (getByName : String → Option String)
    (referenceSpec : APISpecMain) : APISpecMain × List ChainCall :=
  match responseChainLoop getByName referenceSpec.ResponseProcessors [] [] with
  | (none, calls) => (referenceSpec, calls)
  | (some responseChain, calls) =>
    let referenceSpec := { referenceSpec with ResponseChain := some responseChain }
    if responseChain.length > 0 then
      ({ referenceSpec with ResponseHandlersActive := true }, calls)
    else (referenceSpec, calls)

/-! ## Reload queue (main.go) -/

/-- The reload machinery as a state: how many triggers `reloadChan` holds, whether
`reloadLoop` is inside its loop body, how many times `doReload` has been
started, and the values sent on `reloadDone` so far. -/
structure ReloadQueue where
  queued : Nat
  running : Bool
  reloads : Nat
  done : List Bool
  deriving DecidableEq, Repr

/-- The state at start-up: `reloadChan` empty, the loop waiting. -/
def initQueue : ReloadQueue := { queued := 0, running := false, reloads := 0, done := [] }

/-- Go's `select { case ch <- v: ... default: ... }` on a channel with a buffer
of `cap` values that holds `n`: the new count when the send goes through,
`none` when the default branch is taken. -/
def trySend (cap n : Nat) : Option Nat :=
  if n < cap then some (n + 1) else none

/-- Source `ReloadURLStructure`. `reloadChan` has a buffer of one.
`doneReady` says whether `reloadDone` can take a value at this moment; it
cannot when it is nil or nobody is receiving, and the inner `select` then takes
its default branch. -/
def ReloadURLStructure (doneReady : Bool) (q : ReloadQueue) : ReloadQueue :=
  match trySend 1 q.queued with
  | some n => { q with queued := n }
  | none => if doneReady then { q with done := q.done ++ [false] } else q

/-- The head of the loop of `reloadLoop`: when the loop is waiting and
`reloadChan` holds a trigger, the trigger is taken and `doReload` starts. The
loop cannot move (`none`) otherwise. -/
def reloadLoopReceive (q : ReloadQueue) : Option ReloadQueue :=
  if !q.running && decide (q.queued > 0) then
    some { q with queued := q.queued - 1, running := true, reloads := q.reloads + 1 }
  else none

/-- The rest of the loop body of `reloadLoop`: `doReload` and
`doCoprocessReload` are over, `true` is offered on `reloadDone`, and after the
sleep the loop waits again. -/
def reloadLoopFinish (doneReady : Bool) (q : ReloadQueue) : Option ReloadQueue :=
  if q.running then
    some { q with running := false, done := if doneReady then q.done ++ [true] else q.done }
  else none

/-- One step of the reload machinery: a call of `ReloadURLStructure` from any
goroutine, or a move of `reloadLoop`. -/
inductive ReloadStep : ReloadQueue → ReloadQueue → Prop where
  | trigger (doneReady : Bool) (q : ReloadQueue) : ReloadStep q (ReloadURLStructure doneReady q)
  | receive (q q' : ReloadQueue) (h : reloadLoopReceive q = some q') : ReloadStep q q'
  | finish (doneReady : Bool) (q q' : ReloadQueue) (h : reloadLoopFinish doneReady q = some q') :
      ReloadStep q q'

/-- The states the reload machinery can be in after start-up. -/
def ReloadReachable (q : ReloadQueue) : Prop :=
  Relation.ReflTransGen ReloadStep initQueue q

/-- A run of calls of `ReloadURLStructure`, one per entry of `flags`. -/
def reloadCalls (flags : List Bool) (q : ReloadQueue) : ReloadQueue :=
  flags.foldl (fun q doneReady => ReloadURLStructure doneReady q) q

/-! ## Reload (main.go) -/

/-- A route mounted on a router: the host it is bound to (empty for none),
its path and the name of its handler. -/
structure Route where
  host : String
  path : String
  handler : String
  deriving DecidableEq, Repr

/-- A `mux.Router` as far as main.go uses it: the `SkipClean` setting and the
routes mounted so far. -/
structure Router where
  skipClean : Bool
  routes : List Route
  deriving DecidableEq, Repr

/-- The router `mux.NewRouter()` returns: no route mounted. -/
def NewRouter : Router := { skipClean := false, routes := [] }

/-- The configuration fields that `getAPISpecs`, `loadAPIEndpoints` and
`doReload` read, on top of those `getPolicies` reads. `ConnectionString` is
`DBAppConfOptions.ConnectionString`, `UseRPC` is `SlaveOptions.UseRPC`, the
provider fields are those of `AuthOverride`, `OverrideDefaults` and
`SkipURLCleaning` those of `HttpServerOptions`. -/
structure ReloadConfig extends Config where
  UseDBAppConfigs : Bool
  ConnectionString : String
  DisableDashboardZeroConf : Bool
  UseRPC : Bool
  AppPath : String
  ForceAuthProvider : Bool
  AuthProvider : ProviderMeta
  ForceSessionProvider : Bool
  SessionProvider : ProviderMeta
  EnableJSVM : Bool
  OverrideDefaults : Bool
  SkipURLCleaning : Bool
  HostName : String
  ControlAPIHostname : String
  deriving DecidableEq, Repr

/-- The collaborators of `getAPISpecs` and `doReload`: the three definition
loaders of `APILoader` (`none` is a nil result), the connection string that the
zeroconf signal sets while `waitForZeroConf` spins (`none` when it never
comes), and `loadApps`, of which only the routes it mounts are followed. -/
structure ApiEnv where
  LoadDefinitionsFromDashboardService : String → String → Option (List APISpecMain)
  LoadDefinitionsFromRPC : String → Option (List APISpecMain)
  LoadDefinitions : String → Option (List APISpecMain)
  zeroConf : Option String
  loadApps : List APISpecMain → Router → Router

/-- Source `buildConnStr`. The result is `none` when the process does not go
on: `log.Fatal` on an empty connection string with zeroconf disabled, or
`waitForZeroConf` spinning for ever. -/
def buildConnStr (api : ApiEnv) (config : ReloadConfig) (resource : String) : Option String :=
  if config.ConnectionString == "" && config.DisableDashboardZeroConf then none
  else if config.DisableDashboardZeroConf == false && config.ConnectionString == "" then
    match api.zeroConf with
    | none => none
    | some connStr => if connStr == "" then none else some (connStr ++ resource)
  else some (config.ConnectionString ++ resource)

/-- Source `getAPISpecs`. The outer `none` is a process that does not go on,
the inner `none` is the nil result. -/
def getAPISpecs (api : ApiEnv) (config : ReloadConfig) : Option (Option (List APISpecMain)) :=
  let loaded : Option (Option (List APISpecMain)) :=
    if config.UseDBAppConfigs then
      match buildConnStr api config "/system/apis" with
      | none => none
      | some connStr => some (api.LoadDefinitionsFromDashboardService connStr config.NodeSecret)
    else if config.UseRPC then some (api.LoadDefinitionsFromRPC config.RPCKey)
    else some (api.LoadDefinitions config.AppPath)
  match loaded with
  | none => none
  | some none => some none
  | some (some APISpecs) =>
    let APISpecs :=
      if config.ForceAuthProvider then
        APISpecs.map fun s => { s with AuthProvider := config.AuthProvider }
      else APISpecs
    let APISpecs :=
      if config.ForceSessionProvider then
        APISpecs.map fun s => { s with SessionProvider := config.SessionProvider }
      else APISpecs
    some (some APISpecs)

/-- The storage engine code `RPCStorageEngine` that `IsRPCMode` compares with. -/
def RPCStorageEngine : String := "rpc"

/-- Source `IsRPCMode`. -/
def IsRPCMode (config : ReloadConfig) : Bool :=
  if config.ForceAuthProvider then
    if config.AuthProvider.StorageEngine == RPCStorageEngine then true else false
  else false

/-- Source `loadAPIEndpoints`: the control endpoints mounted on the router,
under the control host name when there is one. -/
def loadAPIEndpoints (config : ReloadConfig) (Muxer : Router) : Router :=
  let hostname := if config.ControlAPIHostname != "" then config.ControlAPIHostname
    else config.HostName
  let first := [("/tyk/reload/group", "groupResetHandler"), ("/tyk/reload/", "resetHandler")]
  let middle :=
    if !IsRPCMode config then
      [("/tyk/org/keys/{rest:.*}", "orgHandler"),
       ("/tyk/keys/policy/{rest:.*}", "policyUpdateHandler"),
       ("/tyk/keys/create", "createKeyHandler"),
       ("/tyk/apis", "apiHandler"),
       ("/tyk/apis/{rest:.*}", "apiHandler"),
       ("/tyk/health/", "healthCheckhandler"),
       ("/tyk/oauth/clients/create", "createOauthClient"),
       ("/tyk/oauth/refresh/{rest:.*}", "invalidateOauthRefresh"),
       ("/tyk/cache/{rest:.*}", "invalidateCacheHandler")]
    else []
  let last := [("/tyk/keys/{rest:.*}", "keyHandler"),
    ("/tyk/oauth/clients/{rest:.*}", "oAuthClientHandler")]
  { Muxer with
    routes := Muxer.routes ++
      (first ++ middle ++ last).map fun e => { host := hostname, path := e.1, handler := e.2 } }

/-- Calls `doReload` makes that the globals do not show. -/
inductive ReloadCall where
  | warn (msg : String)
  | clearRPCClients
  | jsvmInit
  deriving DecidableEq, Repr

/-- The globals `doReload` reads or writes: those of the policy side, the
router that `mainHandler.ServeHTTP` dispatches on, the two emergency-mode
flags, and the calls made so far. -/
structure MainState where
  gw : Gateway
  mainRouter : Router
  RPC_EmergencyModeLoaded : Bool
  RPC_EmergencyMode : Bool
  calls : List ReloadCall
  deriving DecidableEq, Repr

/-- Source `doReload`, statement by statement: the globals after `getPolicies`
and after each later statement that writes one of them, in order. A request
served in between is dispatched by `mainHandler.ServeHTTP` on the `mainRouter`
of one of these states. The result is `none` when the process does not go on
inside `getPolicies` or `getAPISpecs`. -/
def doReloadTrace (env : Env) (api : ApiEnv) (config : ReloadConfig) (s : MainState) :
    Option (List MainState) :=
  match getPolicies env config.toConfig s.gw with
  | none => none
  | some gw =>
    let s₁ := { s with gw := gw }
    match getAPISpecs api config with
    | none => none
    | some none =>
      some [s₁, { s₁ with calls := s₁.calls ++
        [ReloadCall.warn "No API Definitions found (nil), not reloading"] }]
    | some (some specs) =>
      if specs.length == 0 then
        some [s₁, { s₁ with calls := s₁.calls ++
          [ReloadCall.warn "No API Definitions found, not reloading"] }]
      else
        let s₂ := if config.UseRPC then
          { s₁ with calls := s₁.calls ++ [ReloadCall.clearRPCClients] } else s₁
        let s₃ := if config.EnableJSVM then
          { s₂ with calls := s₂.calls ++ [ReloadCall.jsvmInit] } else s₂
        let s₄ := { s₃ with mainRouter := NewRouter }
        let s₅ := if config.OverrideDefaults then
          { s₄ with mainRouter := { s₄.mainRouter with skipClean := config.SkipURLCleaning } }
          else s₄
        let s₆ := { s₅ with mainRouter := loadAPIEndpoints config s₅.mainRouter }
        let s₇ := { s₆ with mainRouter := api.loadApps specs s₆.mainRouter }
        let s₈ := { s₇ with RPC_EmergencyModeLoaded := false, RPC_EmergencyMode := false }
        some [s₁, s₂, s₃, s₄, s₅, s₆, s₇, s₈]

/-- Source `doReload`: the globals when it returns. -/
def doReload (env : Env) (api : ApiEnv) (config : ReloadConfig) (s : MainState) :
    Option MainState :=
  (doReloadTrace env api config s).bind List.getLast?

/-! ## Custom middleware (main.go) -/

/-- The type `tykcommon.MiddlewareDefinition`: one custom script hook. -/
structure MiddlewareDefinition where
  Name : String
  Path : String
  RequireSession : Bool
  deriving DecidableEq, Repr

/-- The `CustomMiddleware` block of an API definition. -/
structure MiddlewareSection where
  Pre : List MiddlewareDefinition
  Post : List MiddlewareDefinition
  PostKeyAuth : List MiddlewareDefinition
  AuthCheck : MiddlewareDefinition
  Driver : String
  deriving DecidableEq, Repr

/-- Source `APISpec` with the `CustomMiddleware` block that
`loadCustomMiddleware` reads next to `APIID`. -/
structure APISpecMW extends APISpecMain where
  CustomMiddleware : MiddlewareSection
  deriving DecidableEq, Repr

/-- The file-system calls of `loadCustomMiddleware`: `readDir` is
`ioutil.ReadDir` with its error dropped (the names in directory order, none
when the folder cannot be read), `join` is `path.Join` and `filepath.Join`. -/
structure FsEnv where
  readDir : String → List String
  join : List String → String

/-- Go's `strings.Contains`. -/
def strContains (s substr : String) : Bool :=
  decide (substr.data <:+: s.data)

/-- The expression `strings.Split(name, ".")[0]`: the name up to its first dot. -/
def splitFirst (name : String) : String :=
  ⟨name.data.takeWhile fun c => c != '.'⟩

/-- The descriptor the `pre`, `post_auth` and `post` folder loops build for a
file (lines 469 to 485, 523 to 539, 551 to 567). -/
def fileMWDef (fs : FsEnv) (folderPath name : String) : MiddlewareDefinition :=
  let filePath := fs.join [folderPath, name]
  let middlewareObjectName := splitFirst name
  let requiresSession := strContains middlewareObjectName "_with_session"
  { Name := middlewareObjectName, Path := filePath, RequireSession := requiresSession }

/-- The descriptor the `auth` folder loop builds for a file (lines 497 to 509). -/
def authFileMWDef (fs : FsEnv) (folderPath name : String) : MiddlewareDefinition :=
  let filePath := fs.join [folderPath, name]
  let middlewareObjectName := splitFirst name
  { Name := middlewareObjectName, Path := filePath, RequireSession := false }

/-- A Go slice of middleware definitions: the array it points into and its
length. Every slice of `loadCustomMiddleware` starts at the head of its array. -/
structure Slice where
  arr : Nat
  len : Nat
  deriving DecidableEq, Repr

/-- The arrays behind the slices, by number; the length of an array is the
capacity of the slices that point into it. -/
abbrev Heap := List (List MiddlewareDefinition)

/-- The elements of a slice. -/
def Heap.read (h : Heap) (s : Slice) : List MiddlewareDefinition :=
  (h.getD s.arr []).take s.len

/-- The zero value `MiddlewareDefinition{}`. -/
def zeroMWDef : MiddlewareDefinition := { Name := "", Path := "", RequireSession := false }

/-- Go's `append(s, x)`: when the array behind `s` has room the element is
written into it, right after the slice, and the result shares the array; when
it has none a new array is made, of the capacity `grow` picks for the old one
and at least long enough, and the elements are copied into it. -/
def goAppend (grow : Nat → Nat) (h : Heap) (s : Slice) (x : MiddlewareDefinition) :
    Heap × Slice :=
  let cells := h.getD s.arr []
  if s.len < cells.length then
    (h.set s.arr (cells.set s.len x), { s with len := s.len + 1 })
  else
    let newcap := max (grow cells.length) (s.len + 1)
    (h ++ [cells.take s.len ++ [x] ++ List.replicate (newcap - (s.len + 1)) zeroMWDef],
      { arr := h.length, len := s.len + 1 })

/-- A slice that points into an array of the heap and is no longer than it. -/
def Slice.WellFormed (h : Heap) (s : Slice) : Prop :=
  s.arr < h.length ∧ s.len ≤ (h.getD s.arr []).length

/-- The capacity the Go runtime picks when `append` outgrows a small array:
twice the old one. -/
def doubling (cap : Nat) : Nat := 2 * cap

/-- Source constant `tykcommon.OttoDriver`. -/
def OttoDriver : String := "otto"

/-- The six values `loadCustomMiddleware` returns. -/
structure CustomMiddleware where
  mwPaths : List String
  mwAuthCheckFunc : MiddlewareDefinition
  mwPreFuncs : List MiddlewareDefinition
  mwPostFuncs : List MiddlewareDefinition
  mwPostKeyAuthFuncs : List MiddlewareDefinition
  mwDriver : String
  deriving DecidableEq, Repr

/-- The files of a folder whose name contains `.js`, in directory order. -/
def scriptFiles (fs : FsEnv) (folderPath : String) : List String :=
  (fs.readDir folderPath).filter fun name => strContains name ".js"

/-- Source `loadCustomMiddleware`. `mwPaths` and `mwPreFuncs` are only ever
appended to themselves and are kept as lists. `mwPostFuncs` and
`mwPostKeyAuthFuncs` are kept as slices over arrays, since line 542 appends to
`mwPostFuncs` and stores the result in `mwPostKeyAuthFuncs`; `grow` is the
capacity the runtime picks when an array is outgrown. -/
def loadCustomMiddleware (fs : FsEnv) (grow : Nat → Nat) (MiddlewarePath : String)
    (referenceSpec : APISpecMW) : CustomMiddleware :=
  let cm := referenceSpec.CustomMiddleware
  -- lines 430 to 435
  let mwPaths : List String := []
  let mwAuthCheckFunc := zeroMWDef
  let mwPreFuncs : List MiddlewareDefinition := []
  let heap : Heap := [[], []]
  let mwPostFuncs : Slice := { arr := 0, len := 0 }
  let mwPostKeyAuthFuncs : Slice := { arr := 1, len := 0 }
  let mwDriver := OttoDriver
  -- lines 438 to 444
  let mwAuthCheckFunc := if cm.AuthCheck.Name != "" then cm.AuthCheck else mwAuthCheckFunc
  let mwPaths :=
    if cm.AuthCheck.Name != "" && cm.AuthCheck.Path != "" then mwPaths ++ [cm.AuthCheck.Path]
    else mwPaths
  -- lines 447 to 453
  let mwPaths := mwPaths ++ cm.Pre.map fun mwObj => mwObj.Path
  let mwPreFuncs := mwPreFuncs ++ cm.Pre
  -- lines 454 to 460
  let mwPaths := mwPaths ++ cm.Post.map fun mwObj => mwObj.Path
  let (heap, mwPostFuncs) :=
    cm.Post.foldl (fun st mwObj => goAppend grow st.1 st.2 mwObj) (heap, mwPostFuncs)
  -- lines 465 to 490
  let middlwareFolderPath := fs.join [MiddlewarePath, referenceSpec.APIID, "pre"]
  let files := scriptFiles fs middlwareFolderPath
  let mwPaths := mwPaths ++ files.map fun name => fs.join [middlwareFolderPath, name]
  let mwPreFuncs := mwPreFuncs ++ files.map fun name => fileMWDef fs middlwareFolderPath name
  -- lines 493 to 516
  let middlewareAuthFolderPath := fs.join [MiddlewarePath, referenceSpec.APIID, "auth"]
  let mwAuthFiles := scriptFiles fs middlewareAuthFolderPath
  let mwAuthCheckFunc :=
    match mwAuthFiles.head? with
    | some name => authFileMWDef fs middlewareAuthFolderPath name
    | none => mwAuthCheckFunc
  let mwPaths :=
    match mwAuthFiles.head? with
    | some name => mwPaths ++ [fs.join [middlewareAuthFolderPath, name]]
    | none => mwPaths
  -- lines 519 to 544
  let middlewarePostKeyAuthFolderPath := fs.join [MiddlewarePath, referenceSpec.APIID, "post_auth"]
  let mwPostKeyAuthFiles := scriptFiles fs middlewarePostKeyAuthFolderPath
  let mwPaths := mwPaths ++
    mwPostKeyAuthFiles.map fun name => fs.join [middlewarePostKeyAuthFolderPath, name]
  let (heap, mwPostKeyAuthFuncs) :=
    mwPostKeyAuthFiles.foldl
      (fun st name => goAppend grow st.1 mwPostFuncs
        (fileMWDef fs middlewarePostKeyAuthFolderPath name))
      (heap, mwPostKeyAuthFuncs)
  -- lines 547 to 572
  let middlewarePostFolderPath := fs.join [MiddlewarePath, referenceSpec.APIID, "post"]
  let mwPostFiles := scriptFiles fs middlewarePostFolderPath
  let mwPaths := mwPaths ++ mwPostFiles.map fun name => fs.join [middlewarePostFolderPath, name]
  let (heap, mwPostFuncs) :=
    mwPostFiles.foldl
      (fun st name => goAppend grow st.1 st.2 (fileMWDef fs middlewarePostFolderPath name))
      (heap, mwPostFuncs)
  -- lines 575 to 577
  let mwDriver := if cm.Driver != "" then cm.Driver else mwDriver
  -- lines 580 to 586
  let mwPaths := mwPaths ++
    (cm.PostKeyAuth.filter fun mwObj => mwObj.Path != "").map fun mwObj => mwObj.Path
  let (heap, mwPostKeyAuthFuncs) :=
    cm.PostKeyAuth.foldl (fun st mwObj => goAppend grow st.1 st.2 mwObj)
      (heap, mwPostKeyAuthFuncs)
  { mwPaths := mwPaths, mwAuthCheckFunc := mwAuthCheckFunc, mwPreFuncs := mwPreFuncs,
    mwPostFuncs := heap.read mwPostFuncs, mwPostKeyAuthFuncs := heap.read mwPostKeyAuthFuncs,
    mwDriver := mwDriver }

/-! ## Concrete inputs -/

/-- The two `apidef` constants as the gateway declares them. -/
def apidefConsts : AuthTypes := { AuthToken := "auth_token", UnsetAuth := "" }

/-- A context with nothing attached and no context data. -/
def emptyCtx : Ctx Nat := { session := none, authToken := none, data := none }

/-- A context with nothing attached and empty context data. -/
def dataCtx : Ctx Nat := { session := none, authToken := none, data := some [] }

/-- A request with the given `Authorization` header, form value `key` and
cookie `key`. -/
def mkRequest (header param : String) (cookie : Option String) (ctx : Ctx Nat) : Request Nat :=
  { HeaderGet := fun n => if n = "Authorization" then header else "",
    FormValue := fun n => if n = "key" then param else "",
    Cookie := fun n => if n = "key" then cookie else none,
    ctx := ctx }

/-- An auth block reading the `Authorization` header, with the parameter and
cookie named `key` switched on or off. -/
def mkAuth (useParam useCookie : Bool) : AuthConfig :=
  { UseParam := useParam, ParamName := if useParam then "key" else "",
    UseCookie := useCookie, CookieName := if useCookie then "key" else "",
    AuthHeaderName := "Authorization" }

/-- A spec with the given auth block and identity provider, context variables on. -/
def mkSpec (auth : AuthConfig) (base : String) : APISpec :=
  { Auth := auth, EnableContextVars := true, BaseIdentityProvidedBy := base }

/-- A session store that knows no key. -/
def noSession : String → Nat × Bool := fun _ => (0, false)

/-- A session store that knows every key and answers session 7. -/
def anySession : String → Nat × Bool := fun _ => (7, true)

/-- A twelve-byte object id. -/
def oid1 : ObjectId := [90, 1, 2, 3, 4, 5, 6, 7, 8, 9, 10, 255]

/-- Policy `A`: explicit id `p1`, organisation `orgA`. -/
def polA : Policy :=
  { MID := oid1, ID := "p1", OrgID := "orgA", Rate := 10, Per := 1,
    QuotaMax := 100, QuotaRenewalRate := 3600, AccessRights := none }

/-- Policy `B`: same object id and explicit id as `A`, organisation `orgB`. -/
def polB : Policy :=
  { MID := oid1, ID := "p1", OrgID := "orgB", Rate := 20, Per := 1,
    QuotaMax := 200, QuotaRenewalRate := 3600, AccessRights := none }

/-- Policy `A` as the dashboard sends it. -/
def dbA : DBPolicy := { Policy := polA, AccessRights := none }

/-- Policy `B` as the dashboard sends it. -/
def dbB : DBPolicy := { Policy := polB, AccessRights := none }

/-- Policy `P`: what the store holds before a load. -/
def polP : Policy :=
  { MID := [], ID := "old", OrgID := "orgP", Rate := 1, Per := 1,
    QuotaMax := 1, QuotaRenewalRate := 1, AccessRights := none }

/-- A gateway whose store holds `P` under `old`, with nonce `n0`. -/
def gateway0 : Gateway :=
  { policiesByID := some [("old", polP)], ServiceNonce := "n0", NodeID := "node", calls := [] }

/-- Collaborators that answer every fetch with `http`, decode every dashboard
body to `[A, B]` with nonce `n1`, decode every RPC payload to `[A, B]`, open no
file, and re-register under nonce `n2`. -/
def testEnv (http : HttpResult) : Env :=
  { fetch := fun _ _ _ _ => http,
    decodeList := fun _ => some { Message := [dbA, dbB], Nonce := "n1" },
    rpcGetPolicies := fun _ => "[A, B]",
    decodePolicies := fun _ => some [polA, polB],
    openFile := fun _ => none,
    decodeFile := fun _ => (none, false),
    reLogin := fun reg => ("n2", reg.2) }

/-- A configuration for the given policy source. -/
def mkConfig (source conn record : String) : Config :=
  { PolicySource := source, PolicyConnectionString := conn, PolicyRecordName := record,
    AllowExplicitPolicyID := true, NodeSecret := "secret", RPCKey := "rpckey" }

/-- A CORS block with the given switch and one allowed origin. -/
def mkCORS (enable : Bool) : CORSConfig :=
  { Enable := enable, AllowedOrigins := ["https://app.example"], AllowedMethods := ["GET"],
    AllowedHeaders := [], ExposedHeaders := [], AllowCredentials := false, MaxAge := 24,
    OptionsPassthrough := false, Debug := false }

/-- A provider block with nothing set. -/
def noProvider : ProviderMeta := { Name := "", StorageEngine := "" }

/-- An API spec with the given id, listen path, domain and response processors. -/
def mkMainSpec (id listen domain : String) (processors : List ResponseProcessor) : APISpecMain :=
  { APIID := id, Proxy := { ListenPath := listen }, Domain := domain, CORS := mkCORS true,
    ResponseProcessors := processors, ResponseChain := none, ResponseHandlersActive := false,
    AuthProvider := noProvider, SessionProvider := noProvider }

/-- A middleware stage: the CORS handler built from its options, or a stage
known by name. -/
inductive Stage where
  | cors (options : CORSOptions)
  | named (name : String)
  deriving DecidableEq, Repr

/-- A processor registry that knows `header_injector` and
`response_body_transform` and rejects every other name. -/
def testRegistry : String → Option String := fun name =>
  if name = "header_injector" then some "HeaderInjector"
  else if name = "response_body_transform" then some "ResponseTransformMiddleware"
  else none

/-- A file-mode configuration: definitions from `apps`, policies from the
given source. -/
def mkReloadConfig (policySource : String) : ReloadConfig :=
  { toConfig := mkConfig policySource "" "",
    UseDBAppConfigs := false, ConnectionString := "", DisableDashboardZeroConf := true,
    UseRPC := false, AppPath := "apps", ForceAuthProvider := false, AuthProvider := noProvider,
    ForceSessionProvider := false, SessionProvider := noProvider, EnableJSVM := false,
    OverrideDefaults := false, SkipURLCleaning := false, HostName := "",
    ControlAPIHostname := "" }

/-- Collaborators whose definition loaders all answer `specs` and whose
`loadApps` mounts one route per spec at its listen path. -/
def testApiEnv (specs : Option (List APISpecMain)) : ApiEnv :=
  { LoadDefinitionsFromDashboardService := fun _ _ => specs,
    LoadDefinitionsFromRPC := fun _ => specs,
    LoadDefinitions := fun _ => specs,
    zeroConf := none,
    loadApps := fun l r =>
      { r with routes := r.routes ++
          l.map fun s => { host := s.Domain, path := s.Proxy.ListenPath, handler := s.APIID } } }

/-- The router in service before a reload: the reload endpoint and the API
mounted at `/old/`. -/
def oldRouter : Router :=
  { skipClean := false,
    routes := [{ host := "", path := "/tyk/reload/", handler := "resetHandler" },
               { host := "", path := "/old/", handler := "old" }] }

/-- The globals before a reload: store `gateway0`, router `oldRouter`, both
emergency flags set. -/
def mainState0 : MainState :=
  { gw := gateway0, mainRouter := oldRouter, RPC_EmergencyModeLoaded := true,
    RPC_EmergencyMode := true, calls := [] }

/-- A file system with the four middleware folders of API `api1` under `mw`
holding the given file names; paths are joined with `/`. -/
def testFs (pre auth postAuth post : List String) : FsEnv :=
  { readDir := fun folder =>
      if folder = "mw/api1/pre" then pre
      else if folder = "mw/api1/auth" then auth
      else if folder = "mw/api1/post_auth" then postAuth
      else if folder = "mw/api1/post" then post
      else [],
    join := fun parts => "/".intercalate parts }

/-- A hook declared in the API definition, with no script path. -/
def hook (name : String) : MiddlewareDefinition :=
  { Name := name, Path := "", RequireSession := false }

/-- The spec of API `api1` with the given declared hooks and no auth-check hook. -/
def mkMWSpec (pre post postKeyAuth : List MiddlewareDefinition) : APISpecMW :=
  { toAPISpecMain := mkMainSpec "api1" "/a/" "" [],
    CustomMiddleware := { Pre := pre, Post := post, PostKeyAuth := postKeyAuth,
                          AuthCheck := zeroMWDef, Driver := "" } }

/-- The policy a decoder is left with for `{"org_id": "orgA", "rate": "fast"}`:
the organisation is set, the ill-typed rate is skipped. -/
def polPartial : Policy :=
  { MID := [], ID := "", OrgID := "orgA", Rate := 0, Per := 0,
    QuotaMax := 0, QuotaRenewalRate := 0, AccessRights := none }

/-- Collaborators whose policy file opens and decodes, with a type error
reported for the rate, to a map holding `polPartial` under `p1`. -/
def partialFileEnv : Env :=
  { fetch := fun _ _ _ _ => HttpResult.failed,
    decodeList := fun _ => none,
    rpcGetPolicies := fun _ => "",
    decodePolicies := fun _ => none,
    openFile := fun _ =>
      some "\x7b\"p1\": \x7b\"org_id\": \"orgA\", \"rate\": \"fast\"\x7d\x7d",
    decodeFile := fun _ => (some [("p1", polPartial)], true),
    reLogin := fun reg => reg }

/-! ## Theorems: key authentication -/

theorem stripBearer_empty : stripBearer "" = "" := by decide

theorem selectKey_eq {σ : Type} (config : AuthConfig) (r : Request σ) :
    selectKey config r =
      if pickedCookie config r ≠ "" then pickedCookie config r else keyAfterParam config r := by
  unfold selectKey keyAfterCookie pickedCookie
  by_cases hb : (config.UseCookie || config.CookieName != "") = true
  · simp only [hb, if_true]
    by_cases hv : (match r.Cookie (if (config.CookieName == "") = true
        then config.AuthHeaderName else config.CookieName) with
        | some v => v
        | none => "") = ""
    · simp [hv]
    · simp [hv]
  · simp [hb]

theorem mapGet_mapSet_self {α : Type} (k : String) (v : α) (m : List (String × α)) :
    mapGet k (mapSet k v m) = some v := by
  induction m with
  | nil => simp [mapSet, mapGet]
  | cons e m ih =>
    obtain ⟨k', v'⟩ := e
    by_cases h : k' = k
    · simp [mapSet, mapGet, h]
    · simp [mapSet, mapGet, h, ih]

/-- The session lookup is called, with the Bearer-stripped value, exactly when
the selected value is not empty. -/
theorem lookedUp_of_ne {σ : Type} (consts : AuthTypes) (spec : APISpec)
    (checkSession : String → σ × Bool) (r : Request σ) (h : selectKey spec.Auth r ≠ "") :
    lookedUp (ProcessRequest consts spec checkSession r) = [stripBearer (selectKey spec.Auth r)] := by
  unfold ProcessRequest
  simp only [beq_iff_eq, h, if_false]
  cases hc : checkSession (stripBearer (selectKey spec.Auth r)) with
  | mk s b =>
    cases b <;> simp [lookedUp, List.filterMap]

/-- C1: with parameter lookup enabled and no non-empty cookie picked up, a
non-empty form value under the parameter name (`ParamName`, or `AuthHeaderName`
when that is empty) is, Bearer-stripped, the one token handed to the session
lookup, whatever the header holds; an empty form value leaves the header value
as the selected one. -/
theorem processRequest_param_override {σ : Type} (consts : AuthTypes) (spec : APISpec)
    (checkSession : String → σ × Bool) (r : Request σ)
    (hUse : spec.Auth.UseParam = true) (hCookie : pickedCookie spec.Auth r = "") :
    (r.FormValue (if spec.Auth.ParamName = "" then spec.Auth.AuthHeaderName
        else spec.Auth.ParamName) ≠ "" →
      lookedUp (ProcessRequest consts spec checkSession r) =
        [stripBearer (r.FormValue (if spec.Auth.ParamName = "" then spec.Auth.AuthHeaderName
          else spec.Auth.ParamName))]) ∧
    (r.FormValue (if spec.Auth.ParamName = "" then spec.Auth.AuthHeaderName
        else spec.Auth.ParamName) = "" →
      selectKey spec.Auth r = r.HeaderGet spec.Auth.AuthHeaderName) := by
  have hsel : selectKey spec.Auth r = keyAfterParam spec.Auth r := by
    rw [selectKey_eq]; simp [hCookie]
  constructor
  · intro hv
    have hk : keyAfterParam spec.Auth r = r.FormValue (if spec.Auth.ParamName = ""
        then spec.Auth.AuthHeaderName else spec.Auth.ParamName) := by
      unfold keyAfterParam
      simp only [hUse, Bool.true_or, if_true, beq_iff_eq, bne_iff_ne, ne_eq]
      simp [hv]
    have hne : selectKey spec.Auth r ≠ "" := by rw [hsel, hk]; exact hv
    rw [lookedUp_of_ne consts spec checkSession r hne, hsel, hk]
  · intro hv
    rw [hsel]
    unfold keyAfterParam
    simp only [hUse, Bool.true_or, if_true, beq_iff_eq, bne_iff_ne, ne_eq]
    simp [hv]

theorem processRequest_param_override_witness :
    lookedUp (ProcessRequest apidefConsts (mkSpec (mkAuth true false) "")
        noSession (mkRequest "headerval" "paramval" none emptyCtx)) = ["paramval"] :=
  (processRequest_param_override apidefConsts (mkSpec (mkAuth true false) "") noSession
    (mkRequest "headerval" "paramval" none emptyCtx) (by decide) (by decide)).1 (by decide)

/-- C2: with cookie lookup enabled, a non-empty value of the cookie named
`CookieName` (or `AuthHeaderName` when that is empty) is, Bearer-stripped, the
one token handed to the session lookup, whatever the header and the form value
hold; when the cookie is absent or empty the value held after the parameter
step is kept. -/
theorem processRequest_cookie_override {σ : Type} (consts : AuthTypes) (spec : APISpec)
    (checkSession : String → σ × Bool) (r : Request σ)
    (hUse : spec.Auth.UseCookie = true) :
    (∀ v, r.Cookie (if spec.Auth.CookieName = "" then spec.Auth.AuthHeaderName
        else spec.Auth.CookieName) = some v → v ≠ "" →
      lookedUp (ProcessRequest consts spec checkSession r) = [stripBearer v]) ∧
    ((r.Cookie (if spec.Auth.CookieName = "" then spec.Auth.AuthHeaderName
        else spec.Auth.CookieName) = none ∨
      r.Cookie (if spec.Auth.CookieName = "" then spec.Auth.AuthHeaderName
        else spec.Auth.CookieName) = some "") →
      selectKey spec.Auth r = keyAfterParam spec.Auth r) := by
  constructor
  · intro v hc hv
    have hp : pickedCookie spec.Auth r = v := by
      unfold pickedCookie
      simp only [hUse, Bool.true_or, if_true, beq_iff_eq]
      rw [hc]
    have hsel : selectKey spec.Auth r = v := by
      rw [selectKey_eq, hp]; simp [hv]
    have hne : selectKey spec.Auth r ≠ "" := by rw [hsel]; exact hv
    rw [lookedUp_of_ne consts spec checkSession r hne, hsel]
  · intro hc
    have hp : pickedCookie spec.Auth r = "" := by
      unfold pickedCookie
      simp only [hUse, Bool.true_or, if_true, beq_iff_eq]
      rcases hc with hc | hc <;> rw [hc]
    rw [selectKey_eq, hp]; simp

theorem processRequest_cookie_override_witness :
    lookedUp (ProcessRequest apidefConsts (mkSpec (mkAuth true true) "")
        noSession (mkRequest "headerval" "" (some "cookieval") emptyCtx)) = ["cookieval"] :=
  (processRequest_cookie_override apidefConsts (mkSpec (mkAuth true true) "") noSession
    (mkRequest "headerval" "" (some "cookieval") emptyCtx) (by decide)).1
    "cookieval" (by decide) (by decide)

/-- C3, the code at the failing input: the credential `abearerb` has no white
space at either end, yet `stripBearer` returns `ab` for `Bearer abearerb`, and
a request with header `Authorization: Bearer abearerb`, parameter and cookie
lookup off, hands `ab` to the session lookup. -/
theorem stripBearer_drops_inner_bearer :
    stripBearer ("Bearer " ++ "abearerb") = "ab" ∧
    lookedUp (ProcessRequest apidefConsts (mkSpec (mkAuth false false) "")
      noSession (mkRequest "Bearer abearerb" "" none emptyCtx)) = ["ab"] := by
  decide

/-- C4 as stated fails: a header holding only `Bearer` strips to the empty
token, yet the answer is 403, not 401, and the session lookup is called with
the empty token. -/
theorem processRequest_bearer_only_not_401 :
    stripBearer (selectKey (mkAuth false false)
      (mkRequest "Bearer" "" none emptyCtx)) = "" ∧
    (ProcessRequest apidefConsts (mkSpec (mkAuth false false) "")
      noSession (mkRequest "Bearer" "" none emptyCtx)).status = 403 ∧
    lookedUp (ProcessRequest apidefConsts (mkSpec (mkAuth false false) "")
      noSession (mkRequest "Bearer" "" none emptyCtx)) = [""] := by
  decide

/-- C4 amended: when the value selected from header, parameter and cookie is
empty before Bearer stripping, `ProcessRequest` returns the error
"Authorization field missing" with status 401, leaves the context as it was
and does not call the session lookup. -/
theorem processRequest_empty_401 {σ : Type} (consts : AuthTypes) (spec : APISpec)
    (checkSession : String → σ × Bool) (r : Request σ)
    (h : selectKey spec.Auth r = "") :
    (ProcessRequest consts spec checkSession r).err = some "Authorization field missing" ∧
    (ProcessRequest consts spec checkSession r).status = 401 ∧
    (ProcessRequest consts spec checkSession r).ctx = r.ctx ∧
    lookedUp (ProcessRequest consts spec checkSession r) = [] := by
  unfold ProcessRequest
  simp [h, lookedUp]

theorem processRequest_empty_401_witness :
    (ProcessRequest apidefConsts (mkSpec (mkAuth true true) "") anySession
      (mkRequest "" "" none emptyCtx)).status = 401 ∧
    lookedUp (ProcessRequest apidefConsts (mkSpec (mkAuth true true) "") anySession
      (mkRequest "" "" none emptyCtx)) = [] :=
  have h := processRequest_empty_401 apidefConsts (mkSpec (mkAuth true true) "") anySession
    (mkRequest "" "" none emptyCtx) (by decide)
  ⟨h.2.1, h.2.2.2⟩

/-- C5: when the Bearer-stripped token is not empty and the session lookup
reports it not found, `ProcessRequest` returns the error "Key not authorised"
with status 403; after the lookup it writes one log line, fires one
auth-failure event carrying the token and reports one `KeyFailure` health-check
value, and the request context is left as it was. -/
theorem processRequest_unknown_403 {σ : Type} (consts : AuthTypes) (spec : APISpec)
    (checkSession : String → σ × Bool) (r : Request σ)
    (hne : stripBearer (selectKey spec.Auth r) ≠ "")
    (hnot : (checkSession (stripBearer (selectKey spec.Auth r))).2 = false) :
    (ProcessRequest consts spec checkSession r).err = some "Key not authorised" ∧
    (ProcessRequest consts spec checkSession r).status = 403 ∧
    (ProcessRequest consts spec checkSession r).effects =
      [Effect.sessionLookup (stripBearer (selectKey spec.Auth r)),
       Effect.logInfo "Attempted access with non-existent key.",
       Effect.authFailureEvent (stripBearer (selectKey spec.Auth r)),
       Effect.healthCheck KeyFailure "1"] ∧
    (ProcessRequest consts spec checkSession r).ctx = r.ctx := by
  have hraw : selectKey spec.Auth r ≠ "" := by
    intro h
    rw [h] at hne
    exact hne stripBearer_empty
  unfold ProcessRequest
  simp only [beq_iff_eq, hraw, if_false]
  cases hc : checkSession (stripBearer (selectKey spec.Auth r)) with
  | mk s b =>
    rw [hc] at hnot
    simp only at hnot
    subst hnot
    simp

theorem processRequest_unknown_403_witness :
    (ProcessRequest apidefConsts (mkSpec (mkAuth false false) "") noSession
      (mkRequest "Bearer abc123" "" none dataCtx)).status = 403 ∧
    (ProcessRequest apidefConsts (mkSpec (mkAuth false false) "") noSession
      (mkRequest "Bearer abc123" "" none dataCtx)).effects =
      [Effect.sessionLookup "abc123",
       Effect.logInfo "Attempted access with non-existent key.",
       Effect.authFailureEvent "abc123",
       Effect.healthCheck KeyFailure "1"] :=
  have h := processRequest_unknown_403 apidefConsts (mkSpec (mkAuth false false) "") noSession
    (mkRequest "Bearer abc123" "" none dataCtx) (by decide) (by decide)
  ⟨h.2.1, h.2.2.1⟩

/-- C6 as stated fails: with `BaseIdentityProvidedBy` set to `jwt_claim` a
known token gives status 200 and no error, yet neither the session nor the
token is attached to the context and no `token` context variable is stored. -/
theorem processRequest_other_identity_attaches_nothing :
    (ProcessRequest apidefConsts (mkSpec (mkAuth false false) "jwt_claim") anySession
      (mkRequest "abc123" "" none dataCtx)).status = 200 ∧
    (ProcessRequest apidefConsts (mkSpec (mkAuth false false) "jwt_claim") anySession
      (mkRequest "abc123" "" none dataCtx)).err = none ∧
    (ProcessRequest apidefConsts (mkSpec (mkAuth false false) "jwt_claim") anySession
      (mkRequest "abc123" "" none dataCtx)).ctx.session = none ∧
    (ProcessRequest apidefConsts (mkSpec (mkAuth false false) "jwt_claim") anySession
      (mkRequest "abc123" "" none dataCtx)).ctx.authToken = none ∧
    (ProcessRequest apidefConsts (mkSpec (mkAuth false false) "jwt_claim") anySession
      (mkRequest "abc123" "" none dataCtx)).ctx.data = some [] := by
  decide

/-- C6 amended: when the selected value is not empty and the session lookup
finds the Bearer-stripped token, `ProcessRequest` returns no error with status
200. If `BaseIdentityProvidedBy` is `AuthToken` or `UnsetAuth`, the session and
the token are attached to the context, and with `EnableContextVars` set and
context data present the token is stored under `"token"`. For any other
`BaseIdentityProvidedBy` the context is left as it was. -/
theorem processRequest_known_200 {σ : Type} (consts : AuthTypes) (spec : APISpec)
    (checkSession : String → σ × Bool) (r : Request σ) (s : σ)
    (hraw : selectKey spec.Auth r ≠ "")
    (hfound : checkSession (stripBearer (selectKey spec.Auth r)) = (s, true)) :
    (ProcessRequest consts spec checkSession r).err = none ∧
    (ProcessRequest consts spec checkSession r).status = 200 ∧
    ((spec.BaseIdentityProvidedBy = consts.AuthToken ∨
        spec.BaseIdentityProvidedBy = consts.UnsetAuth) →
      (ProcessRequest consts spec checkSession r).ctx.session = some s ∧
      (ProcessRequest consts spec checkSession r).ctx.authToken =
        some (stripBearer (selectKey spec.Auth r)) ∧
      (spec.EnableContextVars = true → ∀ cnt, r.ctx.data = some cnt →
        ∃ d, (ProcessRequest consts spec checkSession r).ctx.data = some d ∧
          mapGet "token" d = some (CtxValue.str (stripBearer (selectKey spec.Auth r))))) ∧
    (¬ (spec.BaseIdentityProvidedBy = consts.AuthToken ∨
        spec.BaseIdentityProvidedBy = consts.UnsetAuth) →
      (ProcessRequest consts spec checkSession r).ctx = r.ctx) := by
  unfold ProcessRequest
  simp only [beq_iff_eq, hraw, if_false, hfound]
  refine ⟨by simp, by simp, ?_, ?_⟩
  · intro hb
    have hb' : (spec.BaseIdentityProvidedBy == consts.AuthToken ||
        spec.BaseIdentityProvidedBy == consts.UnsetAuth) = true := by
      simpa using hb
    simp only [Bool.not_true, Bool.false_eq_true, if_false, hb', if_true]
    unfold setContextVars
    by_cases he : spec.EnableContextVars = true
    · cases hd : r.ctx.data with
      | none => simp [he, hd]
      | some cnt => simp [he, hd, mapGet_mapSet_self]
    · simp [he]
  · intro hb
    have hb' : (spec.BaseIdentityProvidedBy == consts.AuthToken ||
        spec.BaseIdentityProvidedBy == consts.UnsetAuth) = false := by
      simpa using hb
    simp [hb']

theorem processRequest_known_200_witness :
    (ProcessRequest apidefConsts (mkSpec (mkAuth false false) "auth_token") anySession
      (mkRequest "Bearer abc123" "" none dataCtx)).status = 200 ∧
    (ProcessRequest apidefConsts (mkSpec (mkAuth false false) "auth_token") anySession
      (mkRequest "Bearer abc123" "" none dataCtx)).ctx.session = some 7 ∧
    (ProcessRequest apidefConsts (mkSpec (mkAuth false false) "auth_token") anySession
      (mkRequest "Bearer abc123" "" none dataCtx)).ctx.authToken = some "abc123" :=
  have h := processRequest_known_200 apidefConsts (mkSpec (mkAuth false false) "auth_token")
    anySession (mkRequest "Bearer abc123" "" none dataCtx) 7 (by decide) (by decide)
  ⟨h.2.1, (h.2.2.1 (by decide)).1, (h.2.2.1 (by decide)).2.1⟩

/-! ## Theorems: Go maps -/

theorem mapGet_mapSet {α : Type} (k k' : String) (v : α) (m : List (String × α)) :
    mapGet k (mapSet k' v m) = if k' = k then some v else mapGet k m := by
  induction m with
  | nil => simp [mapSet, mapGet]
  | cons e m ih =>
    obtain ⟨k₀, v₀⟩ := e
    by_cases h₀ : k₀ = k'
    · subst h₀
      by_cases h : k₀ = k <;> simp [mapSet, mapGet, h]
    · by_cases h : k' = k
      · subst h
        simp [mapSet, mapGet, h₀, ih]
      · by_cases h₁ : k₀ = k
        · subst h₁
          simp [mapSet, mapGet, h₀, h]
        · simp [mapSet, mapGet, h₀, h, h₁, ih]

theorem mem_mapKeys_iff {α : Type} (k : String) (m : List (String × α)) :
    k ∈ mapKeys m ↔ mapGet k m ≠ none := by
  induction m with
  | nil => simp [mapKeys, mapGet]
  | cons e m ih =>
    obtain ⟨k₀, v₀⟩ := e
    by_cases h : k₀ = k
    · simp [mapKeys, mapGet, h]
    · have ih' : k ∈ List.map Prod.fst m ↔ mapGet k m ≠ none := ih
      have h' : ¬ k = k₀ := fun e => h e.symm
      simp [mapKeys, mapGet, h, h', ih']

theorem mapKeys_mapSet_of_none {α : Type} (k : String) (v : α) (m : List (String × α))
    (h : mapGet k m = none) : mapKeys (mapSet k v m) = mapKeys m ++ [k] := by
  induction m with
  | nil => simp [mapSet, mapKeys]
  | cons e m ih =>
    obtain ⟨k₀, v₀⟩ := e
    by_cases h₀ : k₀ = k
    · simp [mapGet, h₀] at h
    · simp only [mapGet, h₀, if_false] at h
      have ih' := ih h
      simp only [mapKeys] at ih'
      simp [mapSet, mapKeys, h₀, ih']

theorem nodup_mapKeys_mapSet_of_none {α : Type} (k : String) (v : α) (m : List (String × α))
    (h : mapGet k m = none) (hn : (mapKeys m).Nodup) : (mapKeys (mapSet k v m)).Nodup := by
  rw [mapKeys_mapSet_of_none k v m h]
  have hk : k ∉ mapKeys m := by
    rw [mem_mapKeys_iff]; simp [h]
  rw [List.nodup_append]
  refine ⟨hn, List.nodup_singleton k, ?_⟩
  intro a ha hb
  rw [List.mem_singleton] at hb
  subst hb
  exact hk ha

/-! ## Theorems: policy loading -/

/-- What the dashboard loop stores for a list element under the id it resolved. -/
theorem dashboardStep_get (allowExplicit : Bool) (acc : List (String × Policy) × List Call)
    (p : DBPolicy) (id : String) :
    mapGet id (dashboardStep allowExplicit acc p).1 =
      match mapGet id acc.1 with
      | some v => some v
      | none =>
        if resolveID allowExplicit p = id then some (stampID p id).ToRegularPolicy
        else none := by
  unfold dashboardStep
  cases hr : mapGet (resolveID allowExplicit p) acc.1 with
  | some w =>
    simp only [hr]
    cases hi : mapGet id acc.1 with
    | some v => rfl
    | none =>
      have hne : ¬ resolveID allowExplicit p = id := by
        intro e
        rw [e, hi] at hr
        cases hr
      simp [hne]
  | none =>
    simp only [hr]
    rw [mapGet_mapSet]
    by_cases he : resolveID allowExplicit p = id
    · subst he
      simp [hr]
    · cases hi : mapGet id acc.1 <;> simp [he]

theorem dashboardStep_nodup (allowExplicit : Bool) (acc : List (String × Policy) × List Call)
    (p : DBPolicy) (hn : (mapKeys acc.1).Nodup) :
    (mapKeys (dashboardStep allowExplicit acc p).1).Nodup := by
  unfold dashboardStep
  cases hr : mapGet (resolveID allowExplicit p) acc.1 with
  | some w =>
    simp only [hr]
    exact hn
  | none =>
    simp only [hr]
    exact nodup_mapKeys_mapSet_of_none _ _ _ hr hn

theorem dashboardFold_get (allowExplicit : Bool) (l : List DBPolicy)
    (acc : List (String × Policy) × List Call) (id : String) :
    mapGet id (l.foldl (dashboardStep allowExplicit) acc).1 =
      match mapGet id acc.1 with
      | some v => some v
      | none =>
        (l.find? fun p => resolveID allowExplicit p == id).map fun p =>
          (stampID p id).ToRegularPolicy := by
  induction l generalizing acc with
  | nil => cases h : mapGet id acc.1 <;> simp [h]
  | cons p l ih =>
    rw [List.foldl_cons, ih, dashboardStep_get]
    cases hi : mapGet id acc.1 with
    | some v => rfl
    | none =>
      by_cases he : resolveID allowExplicit p = id
      · have hb : (resolveID allowExplicit p == id) = true := by simpa using he
        simp [he, List.find?, hb]
      · have hb : (resolveID allowExplicit p == id) = false := by simpa using he
        simp [he, List.find?, hb]

theorem dashboardFold_nodup (allowExplicit : Bool) (l : List DBPolicy)
    (acc : List (String × Policy) × List Call) (hn : (mapKeys acc.1).Nodup) :
    (mapKeys (l.foldl (dashboardStep allowExplicit) acc).1).Nodup := by
  induction l generalizing acc with
  | nil => simpa using hn
  | cons p l ih =>
    rw [List.foldl_cons]
    exact ih _ (dashboardStep_nodup allowExplicit acc p hn)

/-- The dashboard loader on an answer that is not a 403 and decodes. -/
theorem loadPoliciesFromDashboard_decoded (env : Env) (endpoint secret : String)
    (allowExplicit : Bool) (g : Gateway) (resp : Response) (list : PolicyList)
    (hfetch : env.fetch endpoint secret g.NodeID g.ServiceNonce = HttpResult.response resp)
    (hstatus : resp.StatusCode ≠ 403)
    (hdecode : env.decodeList resp.Body = some list) :
    LoadPoliciesFromDashboard env endpoint secret allowExplicit g =
      some (some (list.Message.foldl (dashboardStep allowExplicit) ([], g.calls)).1,
        { g with
          ServiceNonce := list.Nonce,
          calls := (list.Message.foldl (dashboardStep allowExplicit) ([], g.calls)).2 }) := by
  unfold LoadPoliciesFromDashboard
  rw [hfetch]
  simp only [beq_iff_eq, hstatus, if_false, hdecode]

/-- The map the dashboard loader returns, through `resolveID`, `stampID` and
`ToRegularPolicy`. -/
theorem loadPoliciesFromDashboard_resolved (env : Env) (endpoint secret : String)
    (allowExplicit : Bool) (g : Gateway) (resp : Response) (list : PolicyList)
    (hfetch : env.fetch endpoint secret g.NodeID g.ServiceNonce = HttpResult.response resp)
    (hstatus : resp.StatusCode ≠ 403)
    (hdecode : env.decodeList resp.Body = some list) :
    ∃ policies g',
      LoadPoliciesFromDashboard env endpoint secret allowExplicit g = some (some policies, g') ∧
      (mapKeys policies).Nodup ∧
      (mapKeys policies).Perm ((list.Message.map (resolveID allowExplicit)).dedup) ∧
      ∀ id, mapGet id policies =
        (list.Message.find? fun p => resolveID allowExplicit p == id).map fun p =>
          (stampID p id).ToRegularPolicy := by
  have hn := dashboardFold_nodup allowExplicit list.Message ([], g.calls) (by simp [mapKeys])
  refine ⟨_, _, loadPoliciesFromDashboard_decoded env endpoint secret allowExplicit g resp list
    hfetch hstatus hdecode, hn, ?_, ?_⟩
  · rw [List.perm_ext_iff_of_nodup hn (List.nodup_dedup _)]
    intro id
    rw [mem_mapKeys_iff, dashboardFold_get, List.mem_dedup, List.mem_map]
    simp only [mapGet]
    constructor
    · intro h
      cases hf : list.Message.find? (fun p => resolveID allowExplicit p == id) with
      | none => simp [hf] at h
      | some p =>
        refine ⟨p, List.mem_of_find?_eq_some hf, ?_⟩
        have := List.find?_some hf
        simpa using this
    · rintro ⟨p, hp, he⟩
      cases hf : list.Message.find? (fun p => resolveID allowExplicit p == id) with
      | none =>
        rw [List.find?_eq_none] at hf
        have := hf p hp
        simp [he] at this
      | some q => simp
  · intro id
    rw [dashboardFold_get]
    simp [mapGet]

/-- C7: when the dashboard answers with a status other than 403 and the body
decodes to a message list, `LoadPoliciesFromDashboard` returns a map with one
entry per resolved policy id and no other: its keys are, without repetition,
the resolved ids of the list, the resolved id of an element being its explicit
`ID` when `allowExplicit` is set and the `ID` is not empty and the hex of its
`MID` otherwise. The entry under an id is the conversion of the first list
element resolving to that id: the embedded policy with `ID` set to that id and
the access rights converted entry by entry. Later elements resolving to the
same id do not replace it. -/
theorem loadPoliciesFromDashboard_first_wins (env : Env) (endpoint secret : String)
    (allowExplicit : Bool) (g : Gateway) (resp : Response) (list : PolicyList)
    (hfetch : env.fetch endpoint secret g.NodeID g.ServiceNonce = HttpResult.response resp)
    (hstatus : resp.StatusCode ≠ 403)
    (hdecode : env.decodeList resp.Body = some list) :
    ∃ policies g',
      LoadPoliciesFromDashboard env endpoint secret allowExplicit g = some (some policies, g') ∧
      (mapKeys policies).Nodup ∧
      (mapKeys policies).Perm
        ((list.Message.map fun p =>
          if allowExplicit && p.Policy.ID != "" then p.Policy.ID else p.Policy.MID.Hex).dedup) ∧
      ∀ id, mapGet id policies =
        (list.Message.find? fun p =>
          (if allowExplicit && p.Policy.ID != "" then p.Policy.ID else p.Policy.MID.Hex) == id).map
          fun p =>
            ({ MID := p.Policy.MID, ID := id, OrgID := p.Policy.OrgID, Rate := p.Policy.Rate,
               Per := p.Policy.Per, QuotaMax := p.Policy.QuotaMax,
               QuotaRenewalRate := p.Policy.QuotaRenewalRate,
               AccessRights := some ((p.AccessRights.getD []).foldl
                 (fun m kv => mapSet kv.1
                   ({ APIName := kv.2.APIName, APIID := kv.2.APIID, Versions := kv.2.Versions,
                      AllowedURLs := kv.2.AllowedURLs } : AccessDefinition) m) []) } : Policy) :=
  loadPoliciesFromDashboard_resolved env endpoint secret allowExplicit g resp list
    hfetch hstatus hdecode

theorem loadPoliciesFromDashboard_first_wins_witness :
    (∃ policies g',
      LoadPoliciesFromDashboard (testEnv (HttpResult.response { StatusCode := 200, Body := "" }))
        "http://dash/system/policies" "secret" true gateway0 = some (some policies, g') ∧
      (mapKeys policies).Perm ["p1"] ∧
      mapGet "p1" policies = some { polA with AccessRights := some [] }) ∧
    (∃ policies g',
      LoadPoliciesFromDashboard (testEnv (HttpResult.response { StatusCode := 200, Body := "" }))
        "http://dash/system/policies" "secret" false gateway0 = some (some policies, g') ∧
      (mapKeys policies).Perm ["5a0102030405060708090aff"] ∧
      mapGet "5a0102030405060708090aff" policies =
        some { polA with ID := "5a0102030405060708090aff", AccessRights := some [] }) := by
  constructor
  · obtain ⟨policies, g', h₁, _, h₃, h₄⟩ := loadPoliciesFromDashboard_first_wins
      (testEnv (HttpResult.response { StatusCode := 200, Body := "" }))
      "http://dash/system/policies" "secret" true gateway0 { StatusCode := 200, Body := "" }
      { Message := [dbA, dbB], Nonce := "n1" } rfl (by decide) rfl
    exact ⟨policies, g', h₁, h₃, (h₄ "p1").trans (by decide)⟩
  · obtain ⟨policies, g', h₁, _, h₃, h₄⟩ := loadPoliciesFromDashboard_first_wins
      (testEnv (HttpResult.response { StatusCode := 200, Body := "" }))
      "http://dash/system/policies" "secret" false gateway0 { StatusCode := 200, Body := "" }
      { Message := [dbA, dbB], Nonce := "n1" } rfl (by decide) rfl
    exact ⟨policies, g', h₁, h₃, (h₄ "5a0102030405060708090aff").trans (by decide)⟩

/-- C8, the code at the failing input: the RPC payload decodes to `[A, B]`,
two policies with the same object id and the same `ID`; `LoadPoliciesFromRPC`
returns a one-entry map that holds the later policy `B` (organisation `orgB`)
under the shared id, the earlier policy `A` having been overwritten. -/
theorem loadPoliciesFromRPC_last_wins :
    (LoadPoliciesFromRPC (testEnv HttpResult.failed) "org" gateway0).1 =
      some [("5a0102030405060708090aff", { polB with ID := "5a0102030405060708090aff" })] ∧
    ((LoadPoliciesFromRPC (testEnv HttpResult.failed) "org" gateway0).1.bind
      (mapGet "5a0102030405060708090aff")).map Policy.OrgID = some "orgB" := by
  decide

/-! ## Theorems: the policy store -/

theorem loadPoliciesFromDashboard_store (env : Env) (endpoint secret : String)
    (allowExplicit : Bool) (g g' : Gateway) (L : PolicyMap)
    (h : LoadPoliciesFromDashboard env endpoint secret allowExplicit g = some (L, g')) :
    g'.policiesByID = g.policiesByID := by
  unfold LoadPoliciesFromDashboard at h
  cases hf : env.fetch endpoint secret g.NodeID g.ServiceNonce with
  | badRequest => simp [hf] at h
  | failed =>
    simp only [hf, Option.some.injEq, Prod.mk.injEq] at h
    rw [← h.2]
  | response resp =>
    simp only [hf] at h
    by_cases hs : resp.StatusCode = 403
    · simp only [beq_iff_eq, hs, if_true, Option.some.injEq, Prod.mk.injEq] at h
      rw [← h.2]
    · simp only [beq_iff_eq, hs, if_false] at h
      cases hd : env.decodeList resp.Body with
      | none =>
        simp only [hd, Option.some.injEq, Prod.mk.injEq] at h
        rw [← h.2]
      | some list =>
        simp only [hd, Option.some.injEq, Prod.mk.injEq] at h
        rw [← h.2]

theorem loadPoliciesFromRPC_store (env : Env) (orgId : String) (g : Gateway) :
    (LoadPoliciesFromRPC env orgId g).2.policiesByID = g.policiesByID := by
  unfold LoadPoliciesFromRPC
  cases h : env.decodePolicies (env.rpcGetPolicies orgId) <;> simp [h]

theorem loadPoliciesFromFile_store (env : Env) (filePath : String) (g : Gateway) :
    (LoadPoliciesFromFile env filePath g).2.policiesByID = g.policiesByID := by
  unfold LoadPoliciesFromFile
  cases env.openFile filePath with
  | none => rfl
  | some f =>
    simp only
    cases (env.decodeFile f).2 <;> rfl

theorem storePolicies_store (L : PolicyMap) (g : Gateway) :
    (storePolicies L g).policiesByID = if 0 < mapLen L then L else g.policiesByID := by
  unfold storePolicies
  by_cases h : mapLen L > 0 <;> simp [h]

/-- C9: when the loader selected by the configuration returns `L`,
`getPolicies` finishes and the store is `L` itself if `L` has at least one
entry and is the prior store if `L` is nil or empty; in file mode with no
policy record name `getPolicies` finishes and leaves everything as it was. -/
theorem getPolicies_replace (env : Env) (config : Config) (g : Gateway) :
    (∀ L : PolicyMap,
      ((config.PolicySource = "service" ∧ config.PolicyConnectionString ≠ "" ∧
          ∃ g₁, LoadPoliciesFromDashboard env (config.PolicyConnectionString ++ "/system/policies")
            config.NodeSecret config.AllowExplicitPolicyID g = some (L, g₁)) ∨
        (config.PolicySource ≠ "service" ∧ config.PolicySource = "rpc" ∧
          (LoadPoliciesFromRPC env config.RPCKey g).1 = L) ∨
        (config.PolicySource ≠ "service" ∧ config.PolicySource ≠ "rpc" ∧
          config.PolicyRecordName ≠ "" ∧
          (LoadPoliciesFromFile env config.PolicyRecordName g).1 = L)) →
      ∃ g', getPolicies env config g = some g' ∧
        g'.policiesByID = if 0 < mapLen L then L else g.policiesByID) ∧
    (config.PolicySource ≠ "service" → config.PolicySource ≠ "rpc" →
      config.PolicyRecordName = "" → getPolicies env config g = some g) := by
  constructor
  · intro L h
    rcases h with ⟨hs, hc, g₁, hl⟩ | ⟨hs, hr, hl⟩ | ⟨hs, hr, hn, hl⟩
    · refine ⟨storePolicies L g₁, ?_, ?_⟩
      · unfold getPolicies
        simp [hs, hc, hl]
      · rw [storePolicies_store,
          loadPoliciesFromDashboard_store env _ _ _ g g₁ L hl]
    · refine ⟨storePolicies L (LoadPoliciesFromRPC env config.RPCKey g).2, ?_, ?_⟩
      · unfold getPolicies
        simp [hs, hr, ← hl]
      · rw [storePolicies_store, loadPoliciesFromRPC_store]
    · refine ⟨storePolicies L (LoadPoliciesFromFile env config.PolicyRecordName g).2, ?_, ?_⟩
      · unfold getPolicies
        simp [hs, hr, hn, ← hl]
      · rw [storePolicies_store, loadPoliciesFromFile_store]
  · intro hs hr hn
    unfold getPolicies
    simp [hs, hr, hn]

theorem getPolicies_replace_witness :
    (∃ g', getPolicies (testEnv HttpResult.failed) (mkConfig "rpc" "" "") gateway0 = some g' ∧
      g'.policiesByID =
        some [("5a0102030405060708090aff", { polB with ID := "5a0102030405060708090aff" })]) ∧
    (∃ g', getPolicies (testEnv HttpResult.failed) (mkConfig "file" "" "policies.json")
        gateway0 = some g' ∧
      g'.policiesByID = some [("old", polP)]) ∧
    getPolicies (testEnv HttpResult.failed) (mkConfig "file" "" "") gateway0 = some gateway0 :=
  ⟨(getPolicies_replace (testEnv HttpResult.failed) (mkConfig "rpc" "" "") gateway0).1
      (some [("5a0102030405060708090aff", { polB with ID := "5a0102030405060708090aff" })])
      (Or.inr (Or.inl ⟨by decide, by decide, by decide⟩)),
   (getPolicies_replace (testEnv HttpResult.failed) (mkConfig "file" "" "policies.json")
      gateway0).1 none (Or.inr (Or.inr ⟨by decide, by decide, by decide, by decide⟩)),
   (getPolicies_replace (testEnv HttpResult.failed) (mkConfig "file" "" "") gateway0).2
      (by decide) (by decide) (by decide)⟩

/-- C10: when the dashboard answers with status 403, `LoadPoliciesFromDashboard`
returns nil; the nonce afterwards is the one the re-registration flow leaves,
the response body and its decoding playing no part; `reLogin` is called once;
and `getPolicies` in service mode then finishes with `policiesByID` as it was. -/
theorem loadPoliciesFromDashboard_403 (env : Env) (endpoint secret : String)
    (allowExplicit : Bool) (g : Gateway) (resp : Response)
    (hfetch : env.fetch endpoint secret g.NodeID g.ServiceNonce = HttpResult.response resp)
    (hstatus : resp.StatusCode = 403) :
    (∃ g', LoadPoliciesFromDashboard env endpoint secret allowExplicit g = some (none, g') ∧
      g'.ServiceNonce = (env.reLogin (g.ServiceNonce, g.NodeID)).1 ∧
      g'.calls.count Call.reLogin = g.calls.count Call.reLogin + 1 ∧
      g'.policiesByID = g.policiesByID) ∧
    (∀ config : Config, config.PolicySource = "service" →
      config.PolicyConnectionString ≠ "" →
      config.PolicyConnectionString ++ "/system/policies" = endpoint →
      config.NodeSecret = secret → config.AllowExplicitPolicyID = allowExplicit →
      ∃ g', getPolicies env config g = some g' ∧ g'.policiesByID = g.policiesByID ∧
        g'.ServiceNonce = (env.reLogin (g.ServiceNonce, g.NodeID)).1 ∧
        g'.calls.count Call.reLogin = g.calls.count Call.reLogin + 1) := by
  have hload : LoadPoliciesFromDashboard env endpoint secret allowExplicit g =
      some (none, { g with
        ServiceNonce := (env.reLogin (g.ServiceNonce, g.NodeID)).1,
        NodeID := (env.reLogin (g.ServiceNonce, g.NodeID)).2,
        calls := g.calls ++
          [Call.logError ("Policy request login failure, Response was: " ++ resp.Body),
           Call.reLogin] }) := by
    unfold LoadPoliciesFromDashboard
    rw [hfetch]
    simp only [beq_iff_eq, hstatus, if_true]
  have h₁ : ∃ g', LoadPoliciesFromDashboard env endpoint secret allowExplicit g = some (none, g') ∧
      g'.ServiceNonce = (env.reLogin (g.ServiceNonce, g.NodeID)).1 ∧
      g'.calls.count Call.reLogin = g.calls.count Call.reLogin + 1 ∧
      g'.policiesByID = g.policiesByID := by
    refine ⟨_, hload, rfl, ?_, rfl⟩
    simp [List.count_append, List.count_cons]
  refine ⟨h₁, ?_⟩
  intro config hs hc he hsec hal
  subst he hsec hal
  obtain ⟨g₁, hl, hnonce, hcount, hstore⟩ := h₁
  have hsp : storePolicies none g₁ = g₁ := by simp [storePolicies, mapLen]
  refine ⟨g₁, ?_, hstore, hnonce, hcount⟩
  unfold getPolicies
  simp only [hs, beq_self_eq_true, if_true, bne_iff_ne, ne_eq, hc, not_false_eq_true, hl, hsp]

theorem loadPoliciesFromDashboard_403_witness :
    ∃ g', getPolicies (testEnv (HttpResult.response { StatusCode := 403, Body := "denied" }))
        (mkConfig "service" "http://dash" "") gateway0 = some g' ∧
      g'.policiesByID = some [("old", polP)] ∧ g'.ServiceNonce = "n2" ∧
      g'.calls.count Call.reLogin = 1 :=
  (loadPoliciesFromDashboard_403
    (testEnv (HttpResult.response { StatusCode := 403, Body := "denied" }))
    "http://dash/system/policies" "secret" true gateway0
    { StatusCode := 403, Body := "denied" } rfl rfl).2
    (mkConfig "service" "http://dash" "") (by decide) (by decide) (by decide) (by decide)
    (by decide)

/-! ## Theorems: routing order -/

theorem sinkLeft_perm {α : Type} (less : α → α → Bool) (x : α) (acc : List α) :
    (sinkLeft less x acc).Perm (x :: acc) := by
  induction acc with
  | nil => simp [sinkLeft]
  | cons y ys ih =>
    unfold sinkLeft
    by_cases h : less x y = true
    · simp only [h, if_true]
      exact (List.Perm.cons y ih).trans (List.Perm.swap x y ys)
    · simp [h]

theorem sinkFold_perm {α : Type} (less : α → α → Bool) (l acc : List α) :
    (l.foldl (fun acc x => sinkLeft less x acc) acc).Perm (l.reverse ++ acc) := by
  induction l generalizing acc with
  | nil => simp
  | cons x xs ih =>
    rw [List.foldl_cons]
    refine (ih _).trans ?_
    rw [List.reverse_cons, List.append_assoc]
    exact List.Perm.append_left _ (by simpa using sinkLeft_perm less x acc)

theorem insertionSort_perm {α : Type} (less : α → α → Bool) (l : List α) :
    (insertionSort less l).Perm l := by
  unfold insertionSort
  refine (List.reverse_perm _).trans ?_
  refine (sinkFold_perm less l []).trans ?_
  rw [List.append_nil]
  exact List.reverse_perm l

theorem sinkLeft_sorted {α : Type} (key : α → Nat) (x : α) (acc : List α)
    (h : acc.Pairwise fun a b => key a ≤ key b) :
    (sinkLeft (fun a b => decide (key a > key b)) x acc).Pairwise fun a b => key a ≤ key b := by
  induction acc with
  | nil => simp [sinkLeft]
  | cons y ys ih =>
    rw [List.pairwise_cons] at h
    unfold sinkLeft
    by_cases hxy : key x > key y
    · simp only [hxy, decide_True, if_true]
      rw [List.pairwise_cons]
      refine ⟨?_, ih h.2⟩
      intro b hb
      rcases List.mem_cons.1 ((List.Perm.mem_iff (sinkLeft_perm _ x ys)).1 hb) with hb' | hb'
      · rw [hb']; exact Nat.le_of_lt hxy
      · exact h.1 b hb'
    · simp only [hxy, decide_False, Bool.false_eq_true, if_false]
      have hle : key x ≤ key y := Nat.le_of_not_lt hxy
      rw [List.pairwise_cons]
      refine ⟨?_, List.pairwise_cons.2 h⟩
      intro b hb
      rcases List.mem_cons.1 hb with hb' | hb'
      · rw [hb']; exact hle
      · exact Nat.le_trans hle (h.1 b hb')

theorem sinkFold_sorted {α : Type} (key : α → Nat) (l acc : List α)
    (h : acc.Pairwise fun a b => key a ≤ key b) :
    (l.foldl (fun acc x => sinkLeft (fun a b => decide (key a > key b)) x acc) acc).Pairwise
      fun a b => key a ≤ key b := by
  induction l generalizing acc with
  | nil => simpa using h
  | cons x xs ih =>
    rw [List.foldl_cons]
    exact ih _ (sinkLeft_sorted key x acc h)

theorem insertionSort_sorted {α : Type} (key : α → Nat) (l : List α) :
    (insertionSort (fun a b => decide (key a > key b)) l).Pairwise fun a b => key b ≤ key a := by
  unfold insertionSort
  rw [List.pairwise_reverse]
  exact sinkFold_sorted key l [] List.Pairwise.nil

/-- C11 as stated fails: two specs with listen paths of the same length and
domains of length 1 and 3, in that order, are left in that order by the sort
with the `SortableAPISpecListByListen` comparator, and that order meets the
contract of `sort.Sort`; the spec with the shorter domain stands first. -/
theorem sortByListen_ties_not_by_domain :
    insertionSort SortableAPISpecListByListen.Less
        [mkMainSpec "1" "/a/" "x" [], mkMainSpec "2" "/b/" "xyz" []] =
      [mkMainSpec "1" "/a/" "x" [], mkMainSpec "2" "/b/" "xyz" []] ∧
    IsSortOutput SortableAPISpecListByListen.Less
      [mkMainSpec "1" "/a/" "x" [], mkMainSpec "2" "/b/" "xyz" []]
      [mkMainSpec "1" "/a/" "x" [], mkMainSpec "2" "/b/" "xyz" []] ∧
    goLen (mkMainSpec "1" "/a/" "x" []).Proxy.ListenPath =
      goLen (mkMainSpec "2" "/b/" "xyz" []).Proxy.ListenPath ∧
    goLen (mkMainSpec "1" "/a/" "x" []).Domain < goLen (mkMainSpec "2" "/b/" "xyz" []).Domain :=
  ⟨by decide, ⟨List.Perm.refl _, by decide⟩, by decide, by decide⟩

/-- C11 amended: for every list of API specs, sorting it with the
`SortableAPISpecListByListen` comparator gives a permutation of the input in
which listen-path lengths are non-increasing. This holds for the insertion
sort and for every output that meets the contract of `sort.Sort`; the
comparator does not read the domain. -/
theorem sortByListen_order (specs : List APISpecMain) :
    IsSortOutput SortableAPISpecListByListen.Less specs
      (insertionSort SortableAPISpecListByListen.Less specs) ∧
    ∀ out, IsSortOutput SortableAPISpecListByListen.Less specs out →
      out.Perm specs ∧
      out.Pairwise fun a b => goLen b.Proxy.ListenPath ≤ goLen a.Proxy.ListenPath := by
  have hkey : ∀ out : List APISpecMain,
      (out.Pairwise fun a b => SortableAPISpecListByListen.Less b a = false) ↔
      out.Pairwise fun a b => goLen b.Proxy.ListenPath ≤ goLen a.Proxy.ListenPath := by
    intro out
    refine List.Pairwise.iff fun a b => ?_
    simp [SortableAPISpecListByListen.Less]
  refine ⟨⟨insertionSort_perm _ specs, ?_⟩, ?_⟩
  · rw [hkey]
    exact insertionSort_sorted (fun s => goLen s.Proxy.ListenPath) specs
  · intro out hout
    exact ⟨hout.1, (hkey out).1 hout.2⟩

theorem sortByListen_order_witness :
    IsSortOutput SortableAPISpecListByListen.Less
      [mkMainSpec "1" "/a/" "" [], mkMainSpec "2" "/ab/" "" [], mkMainSpec "3" "/" "" []]
      (insertionSort SortableAPISpecListByListen.Less
        [mkMainSpec "1" "/a/" "" [], mkMainSpec "2" "/ab/" "" [], mkMainSpec "3" "/" "" []]) ∧
    (insertionSort SortableAPISpecListByListen.Less
        [mkMainSpec "1" "/a/" "" [], mkMainSpec "2" "/ab/" "" [], mkMainSpec "3" "/" "" []]).map
      (fun s => s.Proxy.ListenPath) = ["/ab/", "/a/", "/"] :=
  ⟨(sortByListen_order
      [mkMainSpec "1" "/a/" "" [], mkMainSpec "2" "/ab/" "" [], mkMainSpec "3" "/" "" []]).1,
   by decide⟩

/-! ## Theorems: OAuth key prefixes -/

theorem append_sep_left_unique (c : Char) (l₁ l₂ r₁ r₂ : List Char)
    (h₁ : c ∉ l₁) (h₂ : c ∉ l₂) (h : l₁ ++ c :: r₁ = l₂ ++ c :: r₂) : l₁ = l₂ := by
  induction l₁ generalizing l₂ with
  | nil =>
    cases l₂ with
    | nil => rfl
    | cons y ys =>
      simp only [List.nil_append, List.cons_append, List.cons.injEq] at h
      exact absurd (by rw [h.1]; exact List.mem_cons_self _ _) h₂
  | cons x xs ih =>
    cases l₂ with
    | nil =>
      simp only [List.nil_append, List.cons_append, List.cons.injEq] at h
      exact absurd (by rw [← h.1]; exact List.mem_cons_self _ _) h₁
    | cons y ys =>
      simp only [List.cons_append, List.cons.injEq] at h
      rw [h.1, ih ys (fun hx => h₁ (List.mem_cons_of_mem _ hx))
        (fun hy => h₂ (List.mem_cons_of_mem _ hy)) h.2]

/-- C16 as stated fails: the API ids `x` and `x.y` are distinct, yet the key
`y.k` under the prefix of `x` and the key `k` under the prefix of `x.y` are
the same string `oauth-data.x.y.k`. -/
theorem generateOAuthPrefix_collision :
    "x" ≠ "x.y" ∧
    generateOAuthPrefix "x" ++ "y.k" = generateOAuthPrefix "x.y" ++ "k" := by
  decide

/-- C16 amended: `generateOAuthPrefix id` is `oauth-data.` followed by the id
and a dot, and for every two distinct API ids that contain no dot and every two
storage keys the prefixed keys are different strings. -/
theorem generateOAuthPrefix_no_collision (a b k₁ k₂ : String)
    (hab : a ≠ b) (ha : '.' ∉ a.data) (hb : '.' ∉ b.data) :
    generateOAuthPrefix a = "oauth-data." ++ a ++ "." ∧
    generateOAuthPrefix a ++ k₁ ≠ generateOAuthPrefix b ++ k₂ := by
  refine ⟨rfl, ?_⟩
  intro h
  have hd := congrArg String.data h
  simp only [generateOAuthPrefix, OAUTH_PREFIX, String.data_append, List.append_assoc,
    List.append_cancel_left_eq] at hd
  rw [List.singleton_append, List.singleton_append] at hd
  exact hab (String.ext (append_sep_left_unique '.' a.data b.data k₁.data k₂.data ha hb hd))

theorem generateOAuthPrefix_no_collision_witness :
    generateOAuthPrefix "5a01" = "oauth-data." ++ "5a01" ++ "." ∧
    generateOAuthPrefix "5a01" ++ "02.token" ≠ generateOAuthPrefix "5a0102" ++ "token" :=
  generateOAuthPrefix_no_collision "5a01" "5a0102" "02.token" "token"
    (by decide) (by decide) (by decide)

/-! ## Theorems: CORS stage -/

/-- C19 as stated fails: with CORS enabled and a chain that already holds the
stage `auth`, `handleCORS` gives a chain whose first stage is still `auth`; the
CORS handler is the last stage. -/
theorem handleCORS_not_first :
    (handleCORS Stage.cors [Stage.named "auth"] (mkMainSpec "1" "/a/" "" [])).head? =
      some (Stage.named "auth") ∧
    (handleCORS Stage.cors [Stage.named "auth"] (mkMainSpec "1" "/a/" "" [])).getLast? =
      some (Stage.cors
        { AllowedOrigins := ["https://app.example"], AllowedMethods := ["GET"],
          AllowedHeaders := [], ExposedHeaders := [], AllowCredentials := false, MaxAge := 24,
          OptionsPassthrough := false, Debug := false }) := by
  decide

/-- C19 amended: when `spec.CORS.Enable` is set, `handleCORS` gives the stages
of the chain in their original order followed by the CORS handler built from
the spec's CORS settings, a chain of length `len(c) + 1` (the handler is the
first stage when the chain was empty); when CORS is not enabled the chain is
left unchanged. -/
theorem handleCORS_appends {κ : Type} (corsHandler : CORSOptions → κ) (chain : List κ)
    (spec : APISpecMain) :
    (spec.CORS.Enable = true →
      handleCORS corsHandler chain spec = chain ++ [corsHandler
        { AllowedOrigins := spec.CORS.AllowedOrigins,
          AllowedMethods := spec.CORS.AllowedMethods,
          AllowedHeaders := spec.CORS.AllowedHeaders,
          ExposedHeaders := spec.CORS.ExposedHeaders,
          AllowCredentials := spec.CORS.AllowCredentials,
          MaxAge := spec.CORS.MaxAge,
          OptionsPassthrough := spec.CORS.OptionsPassthrough,
          Debug := spec.CORS.Debug }] ∧
      (handleCORS corsHandler chain spec).length = chain.length + 1) ∧
    (spec.CORS.Enable = false → handleCORS corsHandler chain spec = chain) := by
  constructor
  · intro h
    simp [handleCORS, h]
  · intro h
    simp [handleCORS, h]

theorem handleCORS_appends_witness :
    (handleCORS Stage.cors [Stage.named "auth", Stage.named "quota"]
      (mkMainSpec "1" "/a/" "" [])).length = 3 :=
  ((handleCORS_appends Stage.cors [Stage.named "auth", Stage.named "quota"]
    (mkMainSpec "1" "/a/" "" [])).1 (by decide)).2

/-! ## Theorems: Bearer spellings and disabled sources -/

theorem replaceFirstChars_of_absent (old new : List Char) (hold : old ≠ [])
    (s : List Char) (h : ¬ old <:+: s) : replaceFirstChars old new s = s := by
  induction s with
  | nil =>
    unfold replaceFirstChars
    cases old with
    | nil => exact absurd rfl hold
    | cons c cs => simp
  | cons c cs ih =>
    unfold replaceFirstChars
    have hp : old.isPrefixOf (c :: cs) = false := by
      cases hq : old.isPrefixOf (c :: cs) with
      | false => rfl
      | true => exact absurd (List.isPrefixOf_iff_prefix.1 hq).isInfix h
    have ht : ¬ old <:+: cs := fun hi => h (hi.trans (List.suffix_cons c cs).isInfix)
    simp [hp, ih ht]

theorem trimSpaceChars_space_cons (s : List Char) :
    trimSpaceChars (' ' :: s) = trimSpaceChars s := by
  have h : isSpace ' ' = true := by decide
  simp [trimSpaceChars, List.dropWhile, h]

/-- C17 as stated fails: the spelling `BEARER` is not stripped; the token
`BEARER abc` comes back whole. -/
theorem stripBearer_upper_case_kept :
    stripBearer ("BEARER" ++ " " ++ "abc") = "BEARER abc" ∧
    stripBearer ("bEaReR" ++ " " ++ "abc") = "bEaReR abc" := by
  decide

/-- C17 amended: for the two spellings `Bearer` and `bearer` and every
credential in which neither spelling occurs, `stripBearer` applied to the
spelling, a space and the credential returns the credential with surrounding
white space removed. -/
theorem stripBearer_two_spellings (t : String)
    (hB : ¬ "Bearer".data <:+: t.data) (hb : ¬ "bearer".data <:+: t.data) :
    stripBearer ("Bearer" ++ " " ++ t) = ⟨trimSpaceChars t.data⟩ ∧
    stripBearer ("bearer" ++ " " ++ t) = ⟨trimSpaceChars t.data⟩ := by
  have hb' : ¬ "bearer".data <:+: ' ' :: t.data := by
    intro hi
    rcases List.infix_cons_iff.1 hi with hp | hi'
    · have := List.isPrefixOf_iff_prefix.2 hp
      simp [List.isPrefixOf] at this
    · exact hb hi'
  have hB' : ¬ "Bearer".data <:+: "bearer ".data ++ t.data := by
    intro hi
    have hne : ∀ (c : Char) (s : List Char), c ≠ 'B' → "Bearer".data <:+: c :: s →
        "Bearer".data <:+: s := by
      intro c s hc hi
      rcases List.infix_cons_iff.1 hi with hp | hi'
      · have := List.isPrefixOf_iff_prefix.2 hp
        simp [List.isPrefixOf] at this
        exact absurd this.1.symm hc
      · exact hi'
    have h1 := hne 'b' _ (by decide) hi
    have h2 := hne 'e' _ (by decide) h1
    have h3 := hne 'a' _ (by decide) h2
    have h4 := hne 'r' _ (by decide) h3
    have h5 := hne 'e' _ (by decide) h4
    have h6 := hne 'r' _ (by decide) h5
    have h7 := hne ' ' _ (by decide) h6
    exact hB h7
  constructor
  · have h1 : replaceFirstChars "Bearer".data [] ("Bearer".data ++ (' ' :: t.data)) =
        ' ' :: t.data := by
      simp [replaceFirstChars, List.isPrefixOf]
    have hd : ("Bearer" ++ " " ++ t).data = "Bearer".data ++ (' ' :: t.data) := by
      simp [String.data_append]
    unfold stripBearer stripBearerChars
    simp only [hd, h1]
    rw [replaceFirstChars_of_absent _ _ (by decide) _ hb', trimSpaceChars_space_cons]
  · have hd : ("bearer" ++ " " ++ t).data = "bearer ".data ++ t.data := by
      simp [String.data_append]
    have h2 : replaceFirstChars "bearer".data [] ("bearer ".data ++ t.data) = ' ' :: t.data := by
      simp [replaceFirstChars, List.isPrefixOf]
    unfold stripBearer stripBearerChars
    simp only [hd]
    rw [replaceFirstChars_of_absent _ _ (by decide) _ hB', h2, trimSpaceChars_space_cons]

theorem stripBearer_two_spellings_witness :
    stripBearer ("Bearer" ++ " " ++ " abc123 ") = "abc123" ∧
    stripBearer ("bearer" ++ " " ++ " abc123 ") = "abc123" :=
  stripBearer_two_spellings " abc123 " (by decide) (by decide)

/-- C18 as stated fails: with `UseParam` and `UseCookie` both false but
`ParamName` set to `key`, the form value `paramval` under `key` is the token
handed to the session lookup, not the header value `headerval`. -/
theorem processRequest_param_name_alone_enables :
    lookedUp (ProcessRequest apidefConsts
      { Auth := { UseParam := false, ParamName := "key", UseCookie := false, CookieName := "",
                  AuthHeaderName := "Authorization" },
        EnableContextVars := false, BaseIdentityProvidedBy := "" }
      noSession (mkRequest "headerval" "paramval" none emptyCtx)) = ["paramval"] := by
  decide

/-- C18 amended: with `UseParam` false and `ParamName` empty, and `UseCookie`
false and `CookieName` empty, the selected value is the value of the header
named `AuthHeaderName`, whatever form values and cookies the request carries;
when that value is not empty the token handed to the session lookup is
`stripBearer` of it. -/
theorem processRequest_header_only {σ : Type} (consts : AuthTypes) (spec : APISpec)
    (checkSession : String → σ × Bool) (r : Request σ)
    (hUseParam : spec.Auth.UseParam = false) (hParamName : spec.Auth.ParamName = "")
    (hUseCookie : spec.Auth.UseCookie = false) (hCookieName : spec.Auth.CookieName = "") :
    selectKey spec.Auth r = r.HeaderGet spec.Auth.AuthHeaderName ∧
    (r.HeaderGet spec.Auth.AuthHeaderName ≠ "" →
      lookedUp (ProcessRequest consts spec checkSession r) =
        [stripBearer (r.HeaderGet spec.Auth.AuthHeaderName)]) := by
  have hsel : selectKey spec.Auth r = r.HeaderGet spec.Auth.AuthHeaderName := by
    unfold selectKey keyAfterCookie keyAfterParam
    simp [hUseParam, hParamName, hUseCookie, hCookieName]
  refine ⟨hsel, ?_⟩
  intro hne
  have hne' : selectKey spec.Auth r ≠ "" := by rw [hsel]; exact hne
  rw [lookedUp_of_ne consts spec checkSession r hne', hsel]

theorem processRequest_header_only_witness :
    lookedUp (ProcessRequest apidefConsts (mkSpec (mkAuth false false) "") noSession
      (mkRequest "Bearer abc123" "paramval" (some "cookieval") emptyCtx)) = ["abc123"] :=
  (processRequest_header_only apidefConsts (mkSpec (mkAuth false false) "") noSession
    (mkRequest "Bearer abc123" "paramval" (some "cookieval") emptyCtx)
    (by decide) (by decide) (by decide) (by decide)).2 (by decide)

/-! ## Theorems: response chain -/

/-- The loop on a list in which some name is rejected: it returns on the first
such name, having built a handler for each processor before it and none after. -/
theorem responseChainLoop_rejected (getByName : String → Option String)
    (l : List ResponseProcessor) (chain : List TykResponseHandler) (calls : List ChainCall)
    (h : ∃ p ∈ l, getByName p.Name = none) :
    responseChainLoop getByName l chain calls =
      (none, calls ++
        (l.takeWhile fun p => (getByName p.Name).isSome).map
          (fun p => ChainCall.newProcessor p.Name p.Options) ++
        [ChainCall.logError "Failed to load processor! "]) := by
  induction l generalizing chain calls with
  | nil =>
    obtain ⟨p, hp, _⟩ := h
    cases hp
  | cons p ps ih =>
    unfold responseChainLoop
    cases hg : getByName p.Name with
    | none => simp [List.takeWhile, hg]
    | some ty =>
      have h' : ∃ q ∈ ps, getByName q.Name = none := by
        obtain ⟨q, hq, hn⟩ := h
        rcases List.mem_cons.1 hq with hq' | hq'
        · rw [hq', hg] at hn
          cases hn
        · exact ⟨q, hq', hn⟩
      simp only
      rw [ih _ _ h']
      simp [List.takeWhile, hg]

/-- C20: when the spec's `ResponseProcessors` holds a name that
`GetResponseProcessorByName` rejects, `creeateResponseMiddlewareChain` returns
the spec exactly as it was (`ResponseChain` and `ResponseHandlersActive`
included); it built a handler for each processor standing before the first
rejected name, then wrote the error line, and looked at no later processor. -/
theorem creeateResponseMiddlewareChain_rejected (getByName : String → Option String)
    (referenceSpec : APISpecMain)
    (h : ∃ p ∈ referenceSpec.ResponseProcessors, getByName p.Name = none) :
    (creeateResponseMiddlewareChain getByName referenceSpec).1 = referenceSpec ∧
    (creeateResponseMiddlewareChain getByName referenceSpec).2 =
      (referenceSpec.ResponseProcessors.takeWhile fun p => (getByName p.Name).isSome).map
          (fun p => ChainCall.newProcessor p.Name p.Options) ++
        [ChainCall.logError "Failed to load processor! "] := by
  unfold creeateResponseMiddlewareChain
  rw [responseChainLoop_rejected getByName _ [] [] h]
  simp

theorem creeateResponseMiddlewareChain_rejected_witness :
    (creeateResponseMiddlewareChain testRegistry
      (mkMainSpec "1" "/a/" ""
        [{ Name := "header_injector", Options := "o1" }, { Name := "unknown", Options := "o2" },
         { Name := "response_body_transform", Options := "o3" }])).1 =
      mkMainSpec "1" "/a/" ""
        [{ Name := "header_injector", Options := "o1" }, { Name := "unknown", Options := "o2" },
         { Name := "response_body_transform", Options := "o3" }] ∧
    (creeateResponseMiddlewareChain testRegistry
      (mkMainSpec "1" "/a/" ""
        [{ Name := "header_injector", Options := "o1" }, { Name := "unknown", Options := "o2" },
         { Name := "response_body_transform", Options := "o3" }])).2 =
      [ChainCall.newProcessor "header_injector" "o1",
       ChainCall.logError "Failed to load processor! "] :=
  creeateResponseMiddlewareChain_rejected testRegistry
    (mkMainSpec "1" "/a/" ""
      [{ Name := "header_injector", Options := "o1" }, { Name := "unknown", Options := "o2" },
       { Name := "response_body_transform", Options := "o3" }])
    ⟨{ Name := "unknown", Options := "o2" }, by decide, by decide⟩

/-! ## Theorems: reload queue -/

theorem reloadURLStructure_fields (doneReady : Bool) (q : ReloadQueue) (h : q.queued ≤ 1) :
    (ReloadURLStructure doneReady q).queued = 1 ∧
    (ReloadURLStructure doneReady q).running = q.running ∧
    (ReloadURLStructure doneReady q).reloads = q.reloads := by
  unfold ReloadURLStructure trySend
  by_cases h0 : q.queued < 1
  · have : q.queued = 0 := by omega
    simp [this]
  · have : q.queued = 1 := by omega
    simp only [h0, if_false]
    cases doneReady <;> simp [this]

theorem reloadStep_queued_le (q q' : ReloadQueue) (hs : ReloadStep q q') (h : q.queued ≤ 1) :
    q'.queued ≤ 1 := by
  cases hs with
  | trigger doneReady => exact le_of_eq (reloadURLStructure_fields doneReady q h).1
  | receive _ _ hr =>
    unfold reloadLoopReceive at hr
    split at hr
    · cases hr
      simp only
      omega
    · cases hr
  | finish doneReady _ _ hf =>
    unfold reloadLoopFinish at hf
    split at hf
    · cases hf
      exact h
    · cases hf

theorem reloadReachable_queued_le (q : ReloadQueue) (h : ReloadReachable q) : q.queued ≤ 1 := by
  induction h with
  | refl => decide
  | tail _ hs ih => exact reloadStep_queued_le _ _ hs ih

theorem reloadCalls_fields (flags : List Bool) (q : ReloadQueue) (h : q.queued ≤ 1)
    (hne : flags ≠ []) :
    (reloadCalls flags q).queued = 1 ∧ (reloadCalls flags q).running = q.running ∧
    (reloadCalls flags q).reloads = q.reloads := by
  induction flags generalizing q with
  | nil => exact absurd rfl hne
  | cons f fs ih =>
    have h1 := reloadURLStructure_fields f q h
    cases fs with
    | nil => simpa [reloadCalls] using h1
    | cons f' fs' =>
      have h2 := ih (ReloadURLStructure f q) (le_of_eq h1.1) (by simp)
      simp only [reloadCalls, List.foldl_cons] at h2 ⊢
      exact ⟨h2.1, h2.2.1.trans h1.2.1, h2.2.2.trans h1.2.2⟩

/-- C12 as stated fails: a call of `ReloadURLStructure` that finds the slot
full while `reloadDone` cannot take a value (it is nil unless a test sets it)
leaves the state as it was; nothing is sent on `reloadDone`. -/
theorem reloadURLStructure_drop_without_signal :
    ReloadURLStructure false { queued := 1, running := true, reloads := 1, done := [] } =
      { queued := 1, running := true, reloads := 1, done := [] } := by
  decide

/-- C12 amended: in every reachable state `reloadChan` holds at most one
trigger; a call of `ReloadURLStructure` is a step in every state; from a state
in which a reload is running, two or more calls leave one trigger queued and
start no reload, and once the running reload is over the loop starts exactly
one more `doReload` and then finds the queue empty; a call that finds the slot
full changes neither queue nor loop, and `false` is sent on `reloadDone` when
`reloadDone` can take a value at that moment, nothing otherwise. -/
theorem reload_coalescing :
    (∀ q, ReloadReachable q → q.queued ≤ 1) ∧
    (∀ doneReady q, ReloadStep q (ReloadURLStructure doneReady q)) ∧
    (∀ (q : ReloadQueue) (flags : List Bool) (r₁ r₂ : Bool), q.running = true → q.queued ≤ 1 →
      2 ≤ flags.length →
      (reloadCalls flags q).queued = 1 ∧ (reloadCalls flags q).reloads = q.reloads ∧
      ∃ q₂ q₃ q₄, reloadLoopFinish r₁ (reloadCalls flags q) = some q₂ ∧
        reloadLoopReceive q₂ = some q₃ ∧ q₃.reloads = q.reloads + 1 ∧
        reloadLoopFinish r₂ q₃ = some q₄ ∧ q₄.reloads = q.reloads + 1 ∧
        reloadLoopReceive q₄ = none) ∧
    (∀ (q : ReloadQueue) (doneReady : Bool), q.queued = 1 →
      ReloadURLStructure doneReady q =
        { q with done := if doneReady then q.done ++ [false] else q.done }) := by
  refine ⟨reloadReachable_queued_le, fun d q => ReloadStep.trigger d q, ?_, ?_⟩
  · intro q flags r₁ r₂ hrun hq hlen
    have hne : flags ≠ [] := by
      intro h
      rw [h] at hlen
      simp at hlen
    obtain ⟨hq1, hr1, hc1⟩ := reloadCalls_fields flags q hq hne
    refine ⟨hq1, hc1, ?_⟩
    rw [hrun] at hr1
    generalize reloadCalls flags q = q₁ at hq1 hr1 hc1
    refine ⟨{ q₁ with running := false, done := if r₁ then q₁.done ++ [true] else q₁.done },
      { queued := 0, running := true, reloads := q₁.reloads + 1,
        done := if r₁ then q₁.done ++ [true] else q₁.done },
      { queued := 0, running := false, reloads := q₁.reloads + 1,
        done := if r₂ then (if r₁ then q₁.done ++ [true] else q₁.done) ++ [true]
          else (if r₁ then q₁.done ++ [true] else q₁.done) }, ?_, ?_, ?_, ?_, ?_, ?_⟩
    · simp only [reloadLoopFinish, hr1, if_true]
    · simp [reloadLoopReceive, hq1]
    · simp [hc1]
    · simp [reloadLoopFinish]
    · simp [hc1]
    · simp [reloadLoopReceive]
  · intro q doneReady hq
    obtain ⟨n, r, c, d⟩ := q
    simp only at hq
    subst hq
    unfold ReloadURLStructure trySend
    cases doneReady <;> simp

theorem reload_coalescing_witness :
    (reloadCalls [true, false] { queued := 0, running := true, reloads := 1, done := [] }).queued
      = 1 ∧
    (reloadCalls [true, false] { queued := 0, running := true, reloads := 1, done := [] }).reloads
      = 1 ∧
    ReloadURLStructure true { queued := 1, running := true, reloads := 1, done := [] } =
      { queued := 1, running := true, reloads := 1, done := [false] } :=
  ⟨(reload_coalescing.2.2.1 { queued := 0, running := true, reloads := 1, done := [] }
      [true, false] true true rfl (by decide) (by decide)).1,
   (reload_coalescing.2.2.1 { queued := 0, running := true, reloads := 1, done := [] }
      [true, false] true true rfl (by decide) (by decide)).2.1,
   reload_coalescing.2.2.2 { queued := 1, running := true, reloads := 1, done := [] } true rfl⟩

/-! ## Theorems: reload -/

/-- C13, the code at the failing input: a reload with one API definition at
`/a/`, the router in service holding two routes. Listing the paths on
`mainRouter` after each statement of `doReload`: the old router stays for three
steps, then `mainRouter` is the new router with no route at all, then the new
router with the thirteen control endpoints only, and only after `loadApps` the
new router with `/a/` mounted. -/
theorem doReload_publishes_empty_router :
    (doReloadTrace (testEnv HttpResult.failed) (testApiEnv (some [mkMainSpec "1" "/a/" "" []]))
      (mkReloadConfig "file") mainState0).map
      (fun trace => trace.map fun s => s.mainRouter.routes.map Route.path) =
    some [["/tyk/reload/", "/old/"], ["/tyk/reload/", "/old/"], ["/tyk/reload/", "/old/"],
      [], [],
      ["/tyk/reload/group", "/tyk/reload/", "/tyk/org/keys/{rest:.*}",
       "/tyk/keys/policy/{rest:.*}", "/tyk/keys/create", "/tyk/apis", "/tyk/apis/{rest:.*}",
       "/tyk/health/", "/tyk/oauth/clients/create", "/tyk/oauth/refresh/{rest:.*}",
       "/tyk/cache/{rest:.*}", "/tyk/keys/{rest:.*}", "/tyk/oauth/clients/{rest:.*}"],
      ["/tyk/reload/group", "/tyk/reload/", "/tyk/org/keys/{rest:.*}",
       "/tyk/keys/policy/{rest:.*}", "/tyk/keys/create", "/tyk/apis", "/tyk/apis/{rest:.*}",
       "/tyk/health/", "/tyk/oauth/clients/create", "/tyk/oauth/refresh/{rest:.*}",
       "/tyk/cache/{rest:.*}", "/tyk/keys/{rest:.*}", "/tyk/oauth/clients/{rest:.*}", "/a/"],
      ["/tyk/reload/group", "/tyk/reload/", "/tyk/org/keys/{rest:.*}",
       "/tyk/keys/policy/{rest:.*}", "/tyk/keys/create", "/tyk/apis", "/tyk/apis/{rest:.*}",
       "/tyk/health/", "/tyk/oauth/clients/create", "/tyk/oauth/refresh/{rest:.*}",
       "/tyk/cache/{rest:.*}", "/tyk/keys/{rest:.*}", "/tyk/oauth/clients/{rest:.*}", "/a/"]] := by
  decide

/-- The trace of a reload whose definition source gave nil or nothing. -/
theorem doReloadTrace_skipped (env : Env) (api : ApiEnv) (config : ReloadConfig)
    (s : MainState) (gw : Gateway)
    (hpol : getPolicies env config.toConfig s.gw = some gw)
    (hspecs : getAPISpecs api config = some none ∨ getAPISpecs api config = some (some [])) :
    ∃ msg, doReloadTrace env api config s =
      some [{ s with gw := gw },
        { s with gw := gw, calls := s.calls ++ [ReloadCall.warn msg] }] := by
  unfold doReloadTrace
  rcases hspecs with h | h
  · exact ⟨"No API Definitions found (nil), not reloading", by simp only [hpol, h]⟩
  · exact ⟨"No API Definitions found, not reloading", by simp [hpol, h]⟩

/-- C14: when `getPolicies` has returned and `getAPISpecs` gives nil or an
empty list, `doReload` returns with `mainRouter` and both emergency-mode flags
as they were, having made no call but one warning line (no RPC clients
cleared, no JSVM reset); at no statement of the reload is `mainRouter`
anything but the router that was in service. -/
theorem doReload_skipped_keeps_router (env : Env) (api : ApiEnv) (config : ReloadConfig)
    (s : MainState) (gw : Gateway)
    (hpol : getPolicies env config.toConfig s.gw = some gw)
    (hspecs : getAPISpecs api config = some none ∨ getAPISpecs api config = some (some [])) :
    ∃ s' trace, doReload env api config s = some s' ∧
      doReloadTrace env api config s = some trace ∧
      s'.mainRouter = s.mainRouter ∧
      s'.RPC_EmergencyModeLoaded = s.RPC_EmergencyModeLoaded ∧
      s'.RPC_EmergencyMode = s.RPC_EmergencyMode ∧
      (∃ msg, s'.calls = s.calls ++ [ReloadCall.warn msg]) ∧
      ∀ t ∈ trace, t.mainRouter = s.mainRouter := by
  obtain ⟨msg, ht⟩ := doReloadTrace_skipped env api config s gw hpol hspecs
  refine ⟨{ s with gw := gw, calls := s.calls ++ [ReloadCall.warn msg] }, _, ?_, ht, rfl, rfl,
    rfl, ⟨msg, rfl⟩, ?_⟩
  · unfold doReload
    rw [ht]
    rfl
  · intro t htm
    simp only [List.mem_cons, List.mem_singleton, List.not_mem_nil, or_false] at htm
    rcases htm with h | h <;> rw [h]

theorem doReload_skipped_keeps_router_witness :
    ∃ s' trace, doReload (testEnv HttpResult.failed) (testApiEnv (some []))
        (mkReloadConfig "file") mainState0 = some s' ∧
      doReloadTrace (testEnv HttpResult.failed) (testApiEnv (some []))
        (mkReloadConfig "file") mainState0 = some trace ∧
      s'.mainRouter = oldRouter ∧
      s'.RPC_EmergencyModeLoaded = true ∧
      s'.RPC_EmergencyMode = true ∧
      (∃ msg, s'.calls = [] ++ [ReloadCall.warn msg]) ∧
      ∀ t ∈ trace, t.mainRouter = oldRouter :=
  doReload_skipped_keeps_router (testEnv HttpResult.failed) (testApiEnv (some []))
    (mkReloadConfig "file") mainState0 gateway0 (by decide) (Or.inr (by decide))

/-- C15, the code at the failing input: the definition source gives nil while
the policy source (RPC) gives two policies. `doReload` calls `getPolicies`
before it looks at the definitions, so it returns with the policy store
replaced by the loaded set, the prior policy `old` gone, although the reload is
skipped. -/
theorem doReload_nil_specs_replaces_policies :
    getAPISpecs (testApiEnv none) (mkReloadConfig "rpc") = some none ∧
    mainState0.gw.policiesByID = some [("old", polP)] ∧
    (doReload (testEnv HttpResult.failed) (testApiEnv none) (mkReloadConfig "rpc")
      mainState0).map (fun s => s.gw.policiesByID) =
      some (some [("5a0102030405060708090aff", { polB with ID := "5a0102030405060708090aff" })]) := by
  decide

/-! ## Theorems: slices -/

theorem take_succ_set {α : Type} (l : List α) (n : Nat) (x : α) (h : n < l.length) :
    (l.set n x).take (n + 1) = l.take n ++ [x] := by
  induction l generalizing n with
  | nil => simp at h
  | cons a l ih =>
    cases n with
    | zero => simp
    | succ n =>
      simp only [List.length_cons, Nat.add_lt_add_iff_right] at h
      simp [List.set, ih n h]

theorem take_set_of_le {α : Type} (l : List α) (n m : Nat) (x : α) (h : m ≤ n) :
    (l.set n x).take m = l.take m := by
  induction l generalizing n m with
  | nil => simp
  | cons a l ih =>
    cases n with
    | zero =>
      have : m = 0 := by omega
      simp [this]
    | succ n =>
      cases m with
      | zero => simp
      | succ m => simp [List.set, ih n m (by omega)]

theorem getD_set_self {α : Type} (h : List (List α)) (i : Nat) (a : List α)
    (hi : i < h.length) : (h.set i a).getD i [] = a := by
  simp [List.getD_eq_getElem?_getD, List.getElem?_set, hi]

theorem getD_set_of_ne {α : Type} (h : List (List α)) (i j : Nat) (a : List α) (hne : i ≠ j) :
    (h.set i a).getD j [] = h.getD j [] := by
  simp [List.getD_eq_getElem?_getD, List.getElem?_set, hne]

theorem getD_append_of_lt {α : Type} (h : List (List α)) (a : List α) (j : Nat)
    (hj : j < h.length) : (h ++ [a]).getD j [] = h.getD j [] := by
  simp [List.getD_eq_getElem?_getD, List.getElem?_append_left hj]

theorem getD_append_length {α : Type} (h : List (List α)) (a : List α) :
    (h ++ [a]).getD h.length [] = a := by
  simp [List.getD_eq_getElem?_getD]

theorem goAppend_read (grow : Nat → Nat) (h : Heap) (s : Slice) (x : MiddlewareDefinition)
    (hw : s.WellFormed h) :
    (goAppend grow h s x).1.read (goAppend grow h s x).2 = h.read s ++ [x] ∧
    (goAppend grow h s x).2.WellFormed (goAppend grow h s x).1 := by
  obtain ⟨harr, hlen⟩ := hw
  unfold goAppend
  by_cases hroom : s.len < (h.getD s.arr []).length
  · simp only [hroom, if_true]
    refine ⟨?_, ?_, ?_⟩
    · simp only [Heap.read]
      rw [getD_set_self h s.arr _ harr, take_succ_set _ _ _ hroom]
    · simpa using harr
    · simp only
      rw [getD_set_self h s.arr _ harr, List.length_set]
      exact hroom
  · simp only [hroom, if_false]
    have hlen' : ((h.getD s.arr []).take s.len).length = s.len := by
      rw [List.length_take]; omega
    refine ⟨?_, ?_, ?_⟩
    · simp only [Heap.read]
      rw [getD_append_length, List.append_assoc]
      have := @List.take_left' _ ((h.getD s.arr []).take s.len ++ [x])
        (List.replicate (max (grow (h.getD s.arr []).length) (s.len + 1) - (s.len + 1))
          zeroMWDef) (s.len + 1)
        (by rw [List.length_append, hlen', List.length_singleton])
      rw [List.append_assoc] at this
      exact this
    · simp
    · simp only
      rw [getD_append_length]
      simp only [List.length_append, hlen', List.length_singleton, List.length_replicate]
      omega

theorem goAppend_frame (grow : Nat → Nat) (h : Heap) (s t : Slice) (x : MiddlewareDefinition)
    (hs : s.WellFormed h) (ht : t.WellFormed h) (hsep : t.arr ≠ s.arr ∨ t.len ≤ s.len) :
    (goAppend grow h s x).1.read t = h.read t ∧ t.WellFormed (goAppend grow h s x).1 := by
  obtain ⟨harr, hlen⟩ := hs
  obtain ⟨htarr, htlen⟩ := ht
  unfold goAppend
  by_cases hroom : s.len < (h.getD s.arr []).length
  · simp only [hroom, if_true]
    by_cases hta : t.arr = s.arr
    · have hle : t.len ≤ s.len := by
        rcases hsep with hne | hle
        · exact absurd hta hne
        · exact hle
      refine ⟨?_, ?_, ?_⟩
      · simp only [Heap.read]
        rw [hta, getD_set_self h s.arr _ harr, take_set_of_le _ _ _ _ hle]
      · simpa using htarr
      · rw [hta, getD_set_self h s.arr _ harr, List.length_set]
        rw [hta] at htlen
        exact htlen
    · have hne : s.arr ≠ t.arr := fun e => hta e.symm
      refine ⟨?_, ?_, ?_⟩
      · simp only [Heap.read]
        rw [getD_set_of_ne h s.arr t.arr _ hne]
      · simpa using htarr
      · rw [getD_set_of_ne h s.arr t.arr _ hne]
        exact htlen
  · simp only [hroom, if_false]
    refine ⟨?_, ?_, ?_⟩
    · simp only [Heap.read]
      rw [getD_append_of_lt h _ t.arr htarr]
    · simp only [List.length_append, List.length_singleton]
      omega
    · rw [getD_append_of_lt h _ t.arr htarr]
      exact htlen

theorem appendFold_read {β : Type} (grow : Nat → Nat) (f : β → MiddlewareDefinition)
    (l : List β) (h : Heap) (s : Slice) (hw : s.WellFormed h) :
    (l.foldl (fun st b => goAppend grow st.1 st.2 (f b)) (h, s)).1.read
        (l.foldl (fun st b => goAppend grow st.1 st.2 (f b)) (h, s)).2 = h.read s ++ l.map f ∧
    (l.foldl (fun st b => goAppend grow st.1 st.2 (f b)) (h, s)).2.WellFormed
      (l.foldl (fun st b => goAppend grow st.1 st.2 (f b)) (h, s)).1 := by
  induction l generalizing h s with
  | nil => simpa using hw
  | cons b bs ih =>
    rw [List.foldl_cons]
    obtain ⟨hr, hw'⟩ := goAppend_read grow h s (f b) hw
    obtain ⟨ihr, ihw⟩ := ih (goAppend grow h s (f b)).1 (goAppend grow h s (f b)).2 hw'
    refine ⟨?_, ihw⟩
    rw [ihr, hr]
    simp

theorem goAppend_arr (grow : Nat → Nat) (h : Heap) (s : Slice) (x : MiddlewareDefinition) :
    (goAppend grow h s x).2.arr = s.arr ∨ (goAppend grow h s x).2.arr = h.length := by
  unfold goAppend
  by_cases hroom : s.len < (h.getD s.arr []).length
  · left
    simp only [hroom, if_true]
  · right
    simp only [hroom, if_false]

theorem appendFold_frame {β : Type} (grow : Nat → Nat) (f : β → MiddlewareDefinition)
    (l : List β) (h : Heap) (s t : Slice) (hs : s.WellFormed h) (ht : t.WellFormed h)
    (hne : t.arr ≠ s.arr) :
    (l.foldl (fun st b => goAppend grow st.1 st.2 (f b)) (h, s)).1.read t = h.read t ∧
    t.WellFormed (l.foldl (fun st b => goAppend grow st.1 st.2 (f b)) (h, s)).1 ∧
    t.arr ≠ (l.foldl (fun st b => goAppend grow st.1 st.2 (f b)) (h, s)).2.arr := by
  induction l generalizing h s with
  | nil => exact ⟨rfl, ht, hne⟩
  | cons b bs ih =>
    rw [List.foldl_cons]
    obtain ⟨_, hs'⟩ := goAppend_read grow h s (f b) hs
    obtain ⟨hr, ht'⟩ := goAppend_frame grow h s t (f b) hs ht (Or.inl hne)
    have hne' : t.arr ≠ (goAppend grow h s (f b)).2.arr := by
      rcases goAppend_arr grow h s (f b) with e | e
      · rw [e]; exact hne
      · rw [e]; exact Nat.ne_of_lt ht.1
    obtain ⟨ihr, ihw, ihne⟩ := ih (goAppend grow h s (f b)).1 (goAppend grow h s (f b)).2
      hs' ht' hne'
    exact ⟨ihr.trans hr, ihw, ihne⟩

theorem crossFold_keeps {β : Type} (grow : Nat → Nat) (f : β → MiddlewareDefinition)
    (l : List β) (h : Heap) (pf pka : Slice) (hpf : pf.WellFormed h) :
    (l.foldl (fun st b => goAppend grow st.1 pf (f b)) (h, pka)).1.read pf = h.read pf ∧
    pf.WellFormed (l.foldl (fun st b => goAppend grow st.1 pf (f b)) (h, pka)).1 := by
  induction l generalizing h pka with
  | nil => exact ⟨rfl, hpf⟩
  | cons b bs ih =>
    rw [List.foldl_cons]
    obtain ⟨hr, hw⟩ := goAppend_frame grow h pf pf (f b) hpf hpf (Or.inr (Nat.le_refl _))
    obtain ⟨ihr, ihw⟩ := ih (goAppend grow h pf (f b)).1 (goAppend grow h pf (f b)).2 hw
    exact ⟨ihr.trans hr, ihw⟩

theorem crossFold_last {β : Type} (grow : Nat → Nat) (f : β → MiddlewareDefinition)
    (l : List β) (b : β) (h : Heap) (pf pka : Slice) (hpf : pf.WellFormed h) :
    ((l ++ [b]).foldl (fun st b => goAppend grow st.1 pf (f b)) (h, pka)).1.read
        ((l ++ [b]).foldl (fun st b => goAppend grow st.1 pf (f b)) (h, pka)).2 =
      h.read pf ++ [f b] ∧
    ((l ++ [b]).foldl (fun st b => goAppend grow st.1 pf (f b)) (h, pka)).2.WellFormed
      ((l ++ [b]).foldl (fun st b => goAppend grow st.1 pf (f b)) (h, pka)).1 := by
  rw [List.foldl_append, List.foldl_cons, List.foldl_nil]
  obtain ⟨hr, hw⟩ := crossFold_keeps grow f l h pf pka hpf
  obtain ⟨hr', hw'⟩ := goAppend_read grow
    (l.foldl (fun st b => goAppend grow st.1 pf (f b)) (h, pka)).1 pf (f b) hw
  exact ⟨hr'.trans (by rw [hr]), hw'⟩

theorem loadCustomMiddleware_post (fs : FsEnv) (grow : Nat → Nat) (MiddlewarePath : String)
    (referenceSpec : APISpecMW)
    (hpa : scriptFiles fs (fs.join [MiddlewarePath, referenceSpec.APIID, "post_auth"]) = []) :
    (loadCustomMiddleware fs grow MiddlewarePath referenceSpec).mwPostFuncs =
      referenceSpec.CustomMiddleware.Post ++
        (scriptFiles fs (fs.join [MiddlewarePath, referenceSpec.APIID, "post"])).map
          (fileMWDef fs (fs.join [MiddlewarePath, referenceSpec.APIID, "post"])) := by
  unfold loadCustomMiddleware
  simp only [hpa, List.foldl_nil]
  have h₀ : ({ arr := 0, len := 0 } : Slice).WellFormed [[], []] := ⟨by decide, by decide⟩
  have k₀ : ({ arr := 1, len := 0 } : Slice).WellFormed [[], []] := ⟨by decide, by decide⟩
  obtain ⟨r₁, w₁⟩ := appendFold_read grow id referenceSpec.CustomMiddleware.Post
    [[], []] { arr := 0, len := 0 } h₀
  obtain ⟨_, kw₁, kn₁⟩ := appendFold_frame grow id referenceSpec.CustomMiddleware.Post
    [[], []] { arr := 0, len := 0 } { arr := 1, len := 0 } h₀ k₀ (by decide)
  obtain ⟨r₃, w₃⟩ := appendFold_read grow
    (fileMWDef fs (fs.join [MiddlewarePath, referenceSpec.APIID, "post"]))
    (scriptFiles fs (fs.join [MiddlewarePath, referenceSpec.APIID, "post"])) _ _ w₁
  obtain ⟨_, kw₃, kn₃⟩ := appendFold_frame grow
    (fileMWDef fs (fs.join [MiddlewarePath, referenceSpec.APIID, "post"]))
    (scriptFiles fs (fs.join [MiddlewarePath, referenceSpec.APIID, "post"])) _ _
    { arr := 1, len := 0 } w₁ kw₁ kn₁
  obtain ⟨r₄, _, _⟩ := appendFold_frame grow id referenceSpec.CustomMiddleware.PostKeyAuth
    _ { arr := 1, len := 0 } _ kw₃ w₃ (Ne.symm kn₃)
  refine r₄.trans (r₃.trans ?_)
  rw [r₁]
  simp [Heap.read]

theorem loadCustomMiddleware_post_auth_last (fs : FsEnv) (grow : Nat → Nat)
    (MiddlewarePath : String) (referenceSpec : APISpecMW) (name : String)
    (hpost : scriptFiles fs (fs.join [MiddlewarePath, referenceSpec.APIID, "post"]) = [])
    (hlast : (scriptFiles fs
      (fs.join [MiddlewarePath, referenceSpec.APIID, "post_auth"])).getLast? = some name) :
    (loadCustomMiddleware fs grow MiddlewarePath referenceSpec).mwPostKeyAuthFuncs =
      referenceSpec.CustomMiddleware.Post ++
        [fileMWDef fs (fs.join [MiddlewarePath, referenceSpec.APIID, "post_auth"]) name] ++
        referenceSpec.CustomMiddleware.PostKeyAuth := by
  have hsplit := List.dropLast_append_getLast? name hlast
  unfold loadCustomMiddleware
  simp only [hpost, List.foldl_nil]
  rw [← hsplit]
  have h₀ : ({ arr := 0, len := 0 } : Slice).WellFormed [[], []] := ⟨by decide, by decide⟩
  obtain ⟨r₁, w₁⟩ := appendFold_read grow id referenceSpec.CustomMiddleware.Post
    [[], []] { arr := 0, len := 0 } h₀
  obtain ⟨r₂, w₂⟩ := crossFold_last grow
    (fileMWDef fs (fs.join [MiddlewarePath, referenceSpec.APIID, "post_auth"]))
    (scriptFiles fs (fs.join [MiddlewarePath, referenceSpec.APIID, "post_auth"])).dropLast name
    _ _ { arr := 1, len := 0 } w₁
  obtain ⟨r₄, _⟩ := appendFold_read grow id referenceSpec.CustomMiddleware.PostKeyAuth _ _ w₂
  refine r₄.trans ?_
  rw [r₂, r₁]
  simp [Heap.read]

/-! ## Theorems: custom middleware -/

theorem loadCustomMiddleware_pre (fs : FsEnv) (grow : Nat → Nat) (MiddlewarePath : String)
    (referenceSpec : APISpecMW) :
    (loadCustomMiddleware fs grow MiddlewarePath referenceSpec).mwPreFuncs =
      referenceSpec.CustomMiddleware.Pre ++
        (scriptFiles fs (fs.join [MiddlewarePath, referenceSpec.APIID, "pre"])).map
          (fileMWDef fs (fs.join [MiddlewarePath, referenceSpec.APIID, "pre"])) := by
  simp [loadCustomMiddleware]

theorem loadCustomMiddleware_auth (fs : FsEnv) (grow : Nat → Nat) (MiddlewarePath : String)
    (referenceSpec : APISpecMW) (name : String)
    (h : (scriptFiles fs (fs.join [MiddlewarePath, referenceSpec.APIID, "auth"])).head? =
      some name) :
    (loadCustomMiddleware fs grow MiddlewarePath referenceSpec).mwAuthCheckFunc =
      authFileMWDef fs (fs.join [MiddlewarePath, referenceSpec.APIID, "auth"]) name := by
  simp [loadCustomMiddleware, h]

/-- C21, the code at the failing input: five post-processor hooks declared in
the API definition, one script in the `post_auth` folder, two scripts in the
`post` folder, one declared post-key-auth hook. The pre-processor list is the
declared hook followed by the descriptor of the `pre` script, as the claim
says; the post-processor list ends with the declared post-key-auth hook `k1`
where the descriptor of the second `post` script `g2.js` should stand. -/
theorem loadCustomMiddleware_post_overwritten :
    (loadCustomMiddleware (testFs ["a.js"] [] ["f1.js"] ["g1.js", "g2.js"]) doubling "mw"
      (mkMWSpec [hook "c1"] [hook "p1", hook "p2", hook "p3", hook "p4", hook "p5"]
        [hook "k1"])).mwPreFuncs =
      [hook "c1", { Name := "a", Path := "mw/api1/pre/a.js", RequireSession := false }] ∧
    (loadCustomMiddleware (testFs ["a.js"] [] ["f1.js"] ["g1.js", "g2.js"]) doubling "mw"
      (mkMWSpec [hook "c1"] [hook "p1", hook "p2", hook "p3", hook "p4", hook "p5"]
        [hook "k1"])).mwPostFuncs =
      [hook "p1", hook "p2", hook "p3", hook "p4", hook "p5",
       { Name := "g1", Path := "mw/api1/post/g1.js", RequireSession := false },
       hook "k1"] := by
  decide

/-- C22, the code at the failing input: one declared post-processor hook `p1`,
two scripts in the `post_auth` folder, one declared post-key-auth hook `k1`.
The post-key-auth list returned is the post-processor hook `p1`, the
descriptor of the second script, then `k1`; the descriptor of the first script
`f1.js` is in no list. -/
theorem loadCustomMiddleware_post_auth_mixed :
    (loadCustomMiddleware (testFs [] [] ["f1.js", "f2.js"] []) doubling "mw"
      (mkMWSpec [] [hook "p1"] [hook "k1"])).mwPostKeyAuthFuncs =
      [hook "p1", { Name := "f2", Path := "mw/api1/post_auth/f2.js", RequireSession := false },
       hook "k1"] ∧
    (loadCustomMiddleware (testFs [] [] ["f1.js", "f2.js"] []) doubling "mw"
      (mkMWSpec [] [hook "p1"] [hook "k1"])).mwPostFuncs = [hook "p1"] := by
  decide

/-- C23 as stated fails: the script `check_with_session.js` in the `auth`
folder has the marker in its name, yet the descriptor built for it has
`RequireSession` false. -/
theorem loadCustomMiddleware_auth_never_requires_session :
    (loadCustomMiddleware (testFs [] ["check_with_session.js"] [] []) doubling "mw"
      (mkMWSpec [] [] [])).mwAuthCheckFunc =
      { Name := "check_with_session", Path := "mw/api1/auth/check_with_session.js",
        RequireSession := false } := by
  decide

/-- C23 amended: for a script file whose name, up to its first dot, contains
`_with_session`, the descriptor built by the `pre`, `post_auth` and `post`
folder loops has `RequireSession` true. That descriptor stands in the
pre-processor list for a script of the `pre` folder; in the post-processor list
for a script of the `post` folder when the `post_auth` folder holds no script;
and in the post-key-auth list for the last script of the `post_auth` folder
when the `post` folder holds no script. The descriptor taken from the `auth`
folder always has `RequireSession` false. -/
theorem loadCustomMiddleware_requires_session (fs : FsEnv) (grow : Nat → Nat)
    (MiddlewarePath : String) (referenceSpec : APISpecMW) (name : String)
    (hmark : strContains (splitFirst name) "_with_session" = true) :
    (name ∈ scriptFiles fs (fs.join [MiddlewarePath, referenceSpec.APIID, "pre"]) →
      ({ Name := splitFirst name,
         Path := fs.join [fs.join [MiddlewarePath, referenceSpec.APIID, "pre"], name],
         RequireSession := true } : MiddlewareDefinition) ∈
        (loadCustomMiddleware fs grow MiddlewarePath referenceSpec).mwPreFuncs) ∧
    (∀ folderPath, (fileMWDef fs folderPath name).RequireSession = true) ∧
    ((scriptFiles fs (fs.join [MiddlewarePath, referenceSpec.APIID, "auth"])).head? =
        some name →
      (loadCustomMiddleware fs grow MiddlewarePath referenceSpec).mwAuthCheckFunc.RequireSession
        = false) ∧
    (scriptFiles fs (fs.join [MiddlewarePath, referenceSpec.APIID, "post_auth"]) = [] →
      name ∈ scriptFiles fs (fs.join [MiddlewarePath, referenceSpec.APIID, "post"]) →
      ({ Name := splitFirst name,
         Path := fs.join [fs.join [MiddlewarePath, referenceSpec.APIID, "post"], name],
         RequireSession := true } : MiddlewareDefinition) ∈
        (loadCustomMiddleware fs grow MiddlewarePath referenceSpec).mwPostFuncs) ∧
    (scriptFiles fs (fs.join [MiddlewarePath, referenceSpec.APIID, "post"]) = [] →
      (scriptFiles fs (fs.join [MiddlewarePath, referenceSpec.APIID, "post_auth"])).getLast? =
        some name →
      ({ Name := splitFirst name,
         Path := fs.join [fs.join [MiddlewarePath, referenceSpec.APIID, "post_auth"], name],
         RequireSession := true } : MiddlewareDefinition) ∈
        (loadCustomMiddleware fs grow MiddlewarePath referenceSpec).mwPostKeyAuthFuncs) := by
  have hdef : ∀ folderPath, fileMWDef fs folderPath name =
      { Name := splitFirst name, Path := fs.join [folderPath, name], RequireSession := true } := by
    intro folderPath
    simp [fileMWDef, hmark]
  refine ⟨?_, ?_, ?_, ?_, ?_⟩
  · intro hmem
    rw [loadCustomMiddleware_pre]
    exact List.mem_append_right _ (List.mem_map.2 ⟨name, hmem, hdef _⟩)
  · intro folderPath
    rw [hdef]
  · intro h
    rw [loadCustomMiddleware_auth fs grow MiddlewarePath referenceSpec name h]
    rfl
  · intro hpa hmem
    rw [loadCustomMiddleware_post fs grow MiddlewarePath referenceSpec hpa]
    exact List.mem_append_right _ (List.mem_map.2 ⟨name, hmem, hdef _⟩)
  · intro hpost hlast
    rw [loadCustomMiddleware_post_auth_last fs grow MiddlewarePath referenceSpec name hpost hlast,
      hdef]
    simp

theorem loadCustomMiddleware_requires_session_witness :
    ({ Name := "b_with_session", Path := "mw/api1/pre/b_with_session.js",
       RequireSession := true } : MiddlewareDefinition) ∈
      (loadCustomMiddleware (testFs ["a.js", "b_with_session.js"] [] [] []) doubling "mw"
        (mkMWSpec [hook "c1"] [] [])).mwPreFuncs ∧
    ({ Name := "g_with_session", Path := "mw/api1/post/g_with_session.js",
       RequireSession := true } : MiddlewareDefinition) ∈
      (loadCustomMiddleware (testFs [] [] [] ["g1.js", "g_with_session.js"]) doubling "mw"
        (mkMWSpec [] [hook "p1"] [hook "k1"])).mwPostFuncs ∧
    ({ Name := "f_with_session", Path := "mw/api1/post_auth/f_with_session.js",
       RequireSession := true } : MiddlewareDefinition) ∈
      (loadCustomMiddleware (testFs [] [] ["f1.js", "f_with_session.js"] []) doubling "mw"
        (mkMWSpec [] [hook "p1"] [hook "k1"])).mwPostKeyAuthFuncs :=
  ⟨(loadCustomMiddleware_requires_session (testFs ["a.js", "b_with_session.js"] [] [] [])
      doubling "mw" (mkMWSpec [hook "c1"] [] []) "b_with_session.js" (by decide)).1 (by decide),
   (loadCustomMiddleware_requires_session (testFs [] [] [] ["g1.js", "g_with_session.js"])
      doubling "mw" (mkMWSpec [] [hook "p1"] [hook "k1"]) "g_with_session.js"
      (by decide)).2.2.2.1 (by decide) (by decide),
   (loadCustomMiddleware_requires_session (testFs [] [] ["f1.js", "f_with_session.js"] [])
      doubling "mw" (mkMWSpec [] [hook "p1"] [hook "k1"]) "f_with_session.js"
      (by decide)).2.2.2.2 (by decide) (by decide)⟩

/-! ## Theorems: failed file load, key and ID, response chain on success -/

/-- C24, the code at the failing input: the policy file opens, the decoder
reports a type error and leaves one entry in the map. `LoadPoliciesFromFile`
logs the error and returns that one-entry map, and `getPolicies` in file mode
then replaces the policy store with it. -/
theorem loadPoliciesFromFile_partial_map :
    LoadPoliciesFromFile partialFileEnv "policies.json" gateway0 =
      (some [("p1", polPartial)],
        { gateway0 with calls := [Call.logError "Couldn't unmarshal policies: "] }) ∧
    (getPolicies partialFileEnv (mkConfig "file" "" "policies.json") gateway0).map
      (fun g => g.policiesByID) = some (some [("p1", polPartial)]) := by
  decide

theorem mem_of_mapGet {α : Type} (k : String) (v : α) (m : List (String × α))
    (h : mapGet k m = some v) : (k, v) ∈ m := by
  induction m with
  | nil => simp [mapGet] at h
  | cons e m ih =>
    obtain ⟨k₀, v₀⟩ := e
    by_cases hk : k₀ = k
    · simp only [mapGet, hk, if_true, Option.some.injEq] at h
      rw [hk, h]
      exact List.mem_cons_self _ _
    · simp only [mapGet, hk, if_false] at h
      exact List.mem_cons_of_mem _ (ih h)

theorem rpcFold_key_is_id (l : List Policy) (m : List (String × Policy))
    (hm : ∀ k v, mapGet k m = some v → v.ID = k ∧ k = v.MID.Hex) :
    ∀ k v, mapGet k (l.foldl rpcStep m) = some v → v.ID = k ∧ k = v.MID.Hex := by
  induction l generalizing m with
  | nil => simpa using hm
  | cons p ps ih =>
    rw [List.foldl_cons]
    apply ih
    intro k v hg
    unfold rpcStep at hg
    simp only at hg
    rw [mapGet_mapSet] at hg
    by_cases hk : p.MID.Hex = k
    · subst hk
      simp only [if_true, Option.some.injEq] at hg
      rw [← hg]
      exact ⟨rfl, rfl⟩
    · simp only [hk, if_false] at hg
      exact hm k v hg

/-- C25: in every map returned by `LoadPoliciesFromDashboard` and by
`LoadPoliciesFromRPC`, the entry stored under a key is a policy whose `ID` is
that key; in the RPC loader the key is the hex of the policy's `MID`. -/
theorem loaded_key_is_id (env : Env) (g : Gateway) :
    (∀ (endpoint secret : String) (allowExplicit : Bool) (policies : List (String × Policy))
        (g' : Gateway),
      LoadPoliciesFromDashboard env endpoint secret allowExplicit g = some (some policies, g') →
      ∀ k v, mapGet k policies = some v → v.ID = k) ∧
    (∀ (orgId : String) (policies : List (String × Policy)),
      (LoadPoliciesFromRPC env orgId g).1 = some policies →
      ∀ k v, mapGet k policies = some v → v.ID = k ∧ k = v.MID.Hex) := by
  constructor
  · intro endpoint secret allowExplicit policies g' h k v hg
    have hp : ∃ l : List DBPolicy, ∃ c : List Call,
        policies = (l.foldl (dashboardStep allowExplicit) ([], c)).1 := by
      unfold LoadPoliciesFromDashboard at h
      cases hf : env.fetch endpoint secret g.NodeID g.ServiceNonce with
      | badRequest => simp [hf] at h
      | failed => simp [hf] at h
      | response resp =>
        simp only [hf] at h
        by_cases hs : resp.StatusCode = 403
        · simp [hs] at h
        · simp only [beq_iff_eq, hs, if_false] at h
          cases hd : env.decodeList resp.Body with
          | none => simp [hd] at h
          | some list =>
            simp only [hd, Option.some.injEq, Prod.mk.injEq] at h
            exact ⟨list.Message, g.calls, h.1.symm⟩
    obtain ⟨l, c, rfl⟩ := hp
    rw [dashboardFold_get] at hg
    simp only [mapGet] at hg
    cases hfind : l.find? (fun p => resolveID allowExplicit p == k) with
    | none => simp [hfind] at hg
    | some p =>
      simp only [hfind, Option.map_some', Option.some.injEq] at hg
      rw [← hg]
      rfl
  · intro orgId policies h k v hg
    unfold LoadPoliciesFromRPC at h
    cases hd : env.decodePolicies (env.rpcGetPolicies orgId) with
    | none => simp [hd] at h
    | some l =>
      simp only [hd, Option.some.injEq] at h
      rw [← h] at hg
      exact rpcFold_key_is_id l [] (by intro k v h0; simp [mapGet] at h0) k v hg

theorem loaded_key_is_id_witness :
    (stampID dbA "p1").ToRegularPolicy.ID = "p1" ∧
    (({ polB with ID := "5a0102030405060708090aff" } : Policy).ID = "5a0102030405060708090aff" ∧
      "5a0102030405060708090aff" =
        ({ polB with ID := "5a0102030405060708090aff" } : Policy).MID.Hex) :=
  ⟨(loaded_key_is_id (testEnv (HttpResult.response { StatusCode := 200, Body := "" }))
      gateway0).1 "http://dash/system/policies" "secret" true
      [("p1", (stampID dbA "p1").ToRegularPolicy)]
      { gateway0 with ServiceNonce := "n1", calls := [Call.warnDuplicate "p1" "orgB"] }
      (by decide) "p1" (stampID dbA "p1").ToRegularPolicy (by decide),
   (loaded_key_is_id (testEnv HttpResult.failed) gateway0).2 "org"
      [("5a0102030405060708090aff", { polB with ID := "5a0102030405060708090aff" })]
      (by decide) "5a0102030405060708090aff" { polB with ID := "5a0102030405060708090aff" }
      (by decide)⟩

theorem responseChainLoop_resolved (getByName : String → Option String)
    (l : List ResponseProcessor) (chain : List TykResponseHandler) (calls : List ChainCall)
    (h : ∀ p ∈ l, (getByName p.Name).isSome = true) :
    responseChainLoop getByName l chain calls =
      (some (chain ++ l.filterMap fun p =>
          (getByName p.Name).map fun ty => { processorType := ty, options := p.Options }),
        calls ++ l.map fun p => ChainCall.newProcessor p.Name p.Options) := by
  induction l generalizing chain calls with
  | nil => simp [responseChainLoop]
  | cons p ps ih =>
    unfold responseChainLoop
    have hp := h p (List.mem_cons_self _ _)
    cases hg : getByName p.Name with
    | none => simp [hg] at hp
    | some ty =>
      simp only
      rw [ih _ _ (fun q hq => h q (List.mem_cons_of_mem _ hq))]
      simp [List.filterMap_cons, hg]

theorem resolved_handlers_forall₂ (getByName : String → Option String)
    (l : List ResponseProcessor) (h : ∀ p ∈ l, (getByName p.Name).isSome = true) :
    List.Forall₂
      (fun (p : ResponseProcessor) (hdl : TykResponseHandler) =>
        getByName p.Name = some hdl.processorType ∧ hdl.options = p.Options)
      l
      (l.filterMap fun p =>
        (getByName p.Name).map fun ty => { processorType := ty, options := p.Options }) := by
  induction l with
  | nil => simp
  | cons p ps ih =>
    have hp := h p (List.mem_cons_self _ _)
    cases hg : getByName p.Name with
    | none => simp [hg] at hp
    | some ty =>
      simp only [List.filterMap_cons, hg, Option.map_some']
      exact List.Forall₂.cons ⟨hg, rfl⟩ (ih fun q hq => h q (List.mem_cons_of_mem _ hq))

/-- C26: when every declared response-processor name resolves,
`creeateResponseMiddlewareChain` attaches a chain with one handler per
declared processor, in declaration order, each built by the resolved type from
that processor's options; `ResponseHandlersActive` is true afterwards when there
is at least one processor and keeps its previous value when there is none, the
chain attached then being empty; no other field changes. -/
theorem creeateResponseMiddlewareChain_resolved (getByName : String → Option String)
    (referenceSpec : APISpecMain)
    (h : ∀ p ∈ referenceSpec.ResponseProcessors, (getByName p.Name).isSome = true) :
    ∃ responseChain,
      (creeateResponseMiddlewareChain getByName referenceSpec).1 =
        { referenceSpec with
          ResponseChain := some responseChain,
          ResponseHandlersActive :=
            if referenceSpec.ResponseProcessors = [] then referenceSpec.ResponseHandlersActive
            else true } ∧
      responseChain.length = referenceSpec.ResponseProcessors.length ∧
      List.Forall₂
        (fun (p : ResponseProcessor) (hdl : TykResponseHandler) =>
          getByName p.Name = some hdl.processorType ∧ hdl.options = p.Options)
        referenceSpec.ResponseProcessors responseChain := by
  have hf := resolved_handlers_forall₂ getByName referenceSpec.ResponseProcessors h
  refine ⟨_, ?_, hf.length_eq.symm, hf⟩
  unfold creeateResponseMiddlewareChain
  rw [responseChainLoop_resolved getByName _ [] [] h]
  simp only [List.nil_append]
  have hlen := hf.length_eq
  cases hl : referenceSpec.ResponseProcessors with
  | nil => simp
  | cons p ps =>
    rw [hl] at hlen
    have hpos : (List.filterMap (fun p : ResponseProcessor =>
        (getByName p.Name).map fun ty =>
          ({ processorType := ty, options := p.Options } : TykResponseHandler)) (p :: ps)).length
        > 0 := by
      rw [← hlen]
      simp
    simp only [hpos, if_true]
    simp

theorem creeateResponseMiddlewareChain_resolved_witness :
    ∃ responseChain,
      (creeateResponseMiddlewareChain testRegistry
        (mkMainSpec "1" "/a/" ""
          [{ Name := "header_injector", Options := "o1" },
           { Name := "response_body_transform", Options := "o2" }])).1 =
        { mkMainSpec "1" "/a/" ""
            [{ Name := "header_injector", Options := "o1" },
             { Name := "response_body_transform", Options := "o2" }] with
          ResponseChain := some responseChain,
          ResponseHandlersActive :=
            if (mkMainSpec "1" "/a/" ""
              [{ Name := "header_injector", Options := "o1" },
               { Name := "response_body_transform", Options := "o2" }]).ResponseProcessors = []
            then false else true } ∧
      responseChain.length = 2 ∧
      List.Forall₂
        (fun (p : ResponseProcessor) (hdl : TykResponseHandler) =>
          testRegistry p.Name = some hdl.processorType ∧ hdl.options = p.Options)
        [{ Name := "header_injector", Options := "o1" },
         { Name := "response_body_transform", Options := "o2" }] responseChain :=
  creeateResponseMiddlewareChain_resolved testRegistry
    (mkMainSpec "1" "/a/" ""
      [{ Name := "header_injector", Options := "o1" },
       { Name := "response_body_transform", Options := "o2" }])
    (by decide)

end Tyk
